import Mathlib

/-!
Verification of the locale-aware URL detection/grouping engine of dupdurl
(`pkg/locale`: detector, translations, grouper, scorer).

Modelling conventions (shallow embedding of the Go code):
- A URL string is modelled by its parsed form `GoURL` (scheme, host, path,
  parsed query values).  Go's `net/url.Parse` / `URL.String()` round trip is
  modelled as the identity: wherever the Go code serialises a `url.URL` and
  later re-parses the produced string (e.g. `LocalizedURL.BaseURL`,
  `generateGroupKey`), the model passes the structure itself.  "For every URL
  string that parses" therefore reads "for every `GoURL`".
- `url.Values` is modelled as an association list `List (String × List String)`;
  `Values.Get` returns the first value of the first binding, `Values.Del`
  removes all bindings of the key, exactly as for the Go map.  `Values.Encode`
  (percent-escaping, key sorting) only affects the serialised string, which the
  round-trip convention collapses; the model keeps the value structure.
- Go maps (`groups`, `URLs`, `localePriority`, the translation index) are
  modelled as insertion-ordered association lists with overwrite-on-set.  Two
  behaviours depend on Go's randomised map iteration order: the key set
  collected by `generateGroupKey` (immediately sorted, hence
  order-independent) and the `for ... range` fallback of `updateBestURL`,
  which sets the best URL to an arbitrary stored entry.  That fallback is
  modelled with the arbitrary pick explicit: `updateBestURLAt k` and
  `Grouper.AddAt k` take the picked index `k` as a parameter, so every
  execution of the Go code corresponds to some choice of the `k`s;
  `updateBestURL` and `Grouper.Add` are the fixed instance `k = 0` (the first
  inserted entry), used where the choice provably does not matter.
- `strings.ToLower` is modelled on ASCII (`Char.toLower`); every string the
  detector tables and regex can match is ASCII.  String lengths are character
  counts (byte counts in Go); all table entries are ASCII so they agree.
- The float comparison `float64(matchCount) >= float64(len)*0.7` in
  `validateSimilarity` is modelled by the exact rational comparison
  `10 * matchCount ≥ 7 * len`.
- The unused `groupIndex` field of `TranslationMatcher` is omitted.
-/

namespace Dupdurl

/-- Go `strings.ToLower`, restricted to ASCII. -/
def lowerStr (s : String) : String := String.mk (s.toList.map Char.toLower)

/-- Characters of `s`, with every leading and trailing `c` removed: Go
`strings.Trim(s, string(c))` for a one-character cutset. -/
def trimChar (c : Char) (s : String) : String :=
  String.mk (((s.toList.dropWhile (· == c)).reverse.dropWhile (· == c)).reverse)

/-- Go `strings.Trim(path, "/")`. -/
def trimSlashes (s : String) : String := trimChar '/' s

/-- Split a character list on the separator `c`; Go `strings.Split` semantics
(the empty list yields one empty field). -/
def splitOnChar (c : Char) : List Char → List (List Char)
  | [] => [[]]
  | x :: xs =>
    let r := splitOnChar c xs
    if x == c then [] :: r
    else
      match r with
      | [] => [[x]]
      | h :: t => (x :: h) :: t

/-- Go `strings.Split(s, string(c))` for a one-character separator. -/
def splitStr (s : String) (c : Char) : List String :=
  (splitOnChar c s.toList).map String.mk

/-- Go `strings.Join(parts, string(c))`. -/
def joinStr (parts : List String) (c : Char) : String :=
  String.intercalate (String.mk [c]) parts

/-- Go `strings.TrimPrefix(s, p)`. -/
def trimPrefixStr (s p : String) : String :=
  if p.toList.isPrefixOf s.toList then String.mk (s.toList.drop p.toList.length) else s

/-- Go byte-wise string comparison `a <= b` (ASCII). -/
def strLeB (a b : String) : Bool :=
  let rec go : List Char → List Char → Bool
    | [], _ => true
    | _ :: _, [] => false
    | x :: xs, y :: ys => if x < y then true else if y < x then false else go xs ys
  go a.toList b.toList

/-- Association-list lookup: the Go map read `m[k]` (with `ok`). -/
def alLookup {α : Type} : List (String × α) → String → Option α
  | [], _ => none
  | (k2, v) :: rest, k => if k2 = k then some v else alLookup rest k

/-- Association-list update: the Go map write `m[k] = v` (overwrite in place,
else append). -/
def alSet {α : Type} : List (String × α) → String → α → List (String × α)
  | [], k, v => [(k, v)]
  | (k2, v2) :: rest, k, v =>
    if k2 = k then (k, v) :: rest else (k2, v2) :: alSet rest k v

/-- The ISO 639-1 code table `localeCodes` of `detector.go`, as the list of its
keys (every stored value is `true`). -/
def localeCodesList : List String :=
  ["aa", "ab", "ae", "af", "ak", "am", "an", "ar",
   "as", "av", "ay", "az", "ba", "be", "bg", "bh",
   "bi", "bm", "bn", "bo", "br", "bs", "ca", "ce",
   "ch", "co", "cr", "cs", "cu", "cv", "cy", "da",
   "de", "dv", "dz", "ee", "el", "en", "eo", "es",
   "et", "eu", "fa", "ff", "fi", "fj", "fo", "fr",
   "fy", "ga", "gd", "gl", "gn", "gu", "gv", "ha",
   "he", "hi", "ho", "hr", "ht", "hu", "hy", "hz",
   "ia", "id", "ie", "ig", "ii", "ik", "io", "is",
   "it", "iu", "ja", "jv", "ka", "kg", "ki", "kj",
   "kk", "kl", "km", "kn", "ko", "kr", "ks", "ku",
   "kv", "kw", "ky", "la", "lb", "lg", "li", "ln",
   "lo", "lt", "lu", "lv", "mg", "mh", "mi", "mk",
   "ml", "mn", "mr", "ms", "mt", "my", "na", "nb",
   "nd", "ne", "ng", "nl", "nn", "no", "nr", "nv",
   "ny", "oc", "oj", "om", "or", "os", "pa", "pi",
   "pl", "ps", "pt", "qu", "rm", "rn", "ro", "ru",
   "rw", "sa", "sc", "sd", "se", "sg", "si", "sk",
   "sl", "sm", "sn", "so", "sq", "sr", "ss", "st",
   "su", "sv", "sw", "ta", "te", "tg", "th", "ti",
   "tk", "tl", "tn", "to", "tr", "ts", "tt", "tw",
   "ty", "ug", "uk", "ur", "uz", "ve", "vi", "vo",
   "wa", "wo", "xh", "yi", "yo", "za", "zh", "zu"]

/-- The Go map read `localeCodes[s]` (missing keys read `false`). -/
def localeCodes (s : String) : Bool := localeCodesList.contains s

/-- `regexp.MustCompile("^[a-z]{2}-[a-zA-Z]{2}$").MatchString`. -/
def extendedLocaleRegex (s : String) : Bool :=
  match s.toList with
  | [a, b, c, d, e] =>
    ('a' ≤ a && a ≤ 'z') && ('a' ≤ b && b ≤ 'z') && c == '-' &&
      (('a' ≤ d && d ≤ 'z') || ('A' ≤ d && d ≤ 'Z')) &&
      (('a' ≤ e && e ≤ 'z') || ('A' ≤ e && e ≤ 'Z'))
  | _ => false

/-- `localeQueryParams` of `detector.go`. -/
def localeQueryParams : List String := ["lang", "locale", "language", "hl", "l"]

/-- `LocaleType` of `detector.go`. -/
inductive LocaleType where
  | path
  | subdomain
  | query
  | none
deriving DecidableEq, Repr

/-- A parsed URL: the fields of Go's `url.URL` that `pkg/locale` reads.
`query` is the parsed form of `RawQuery` (see the header comment). -/
structure GoURL where
  scheme : String
  host : String
  path : String
  query : List (String × List String)
deriving DecidableEq, Repr

/-- Go `url.Values.Get`: the first value of the key, `""` when absent. -/
def valuesGet (q : List (String × List String)) (key : String) : String :=
  match alLookup q key with
  | some (v :: _) => v
  | _ => ""

/-- Go `url.Values.Del`: remove every binding of the key. -/
def valuesDel : List (String × List String) → String →
    List (String × List String)
  | [], _ => []
  | (k2, v) :: rest, key =>
    if k2 = key then valuesDel rest key else (k2, v) :: valuesDel rest key

/-- `LocalizedURL` of `detector.go`; the two URL strings are carried in parsed
form (round-trip convention). -/
structure LocalizedURL where
  BaseURL : GoURL
  Locale : String
  LocaleType : LocaleType
  OriginalURL : GoURL
  Position : Int
deriving DecidableEq, Repr

/-- `Detector` of `detector.go`. -/
structure Detector where
  contextAware : Bool
deriving DecidableEq, Repr

/-- `NewDetector`. -/
def NewDetector : Detector :=
  { contextAware := true }

/-- `Detector.detectSubdomain`. -/
def detectSubdomain (_d : Detector) (host : String) : String :=
  match splitStr host '.' with
  | p0 :: _ :: _ =>
    let firstPart := lowerStr p0
    if localeCodes firstPart then firstPart
    else if extendedLocaleRegex firstPart then lowerStr firstPart
    else ""
  | _ => ""

/-- The `falsePositives` deny-list of `Detector.validatePathSegmentAsLocale`. -/
def falsePositives : List String :=
  ["id", "in", "is", "or", "to", "ad", "as", "at", "by", "go", "no"]

/-- `Detector.validatePathSegmentAsLocale`. -/
def validatePathSegmentAsLocale (d : Detector) (segment0 : String)
    (allSegments : List String) (position : Int) : String :=
  let segment := lowerStr segment0
  let isLocale := localeCodes segment || extendedLocaleRegex segment
  if !isLocale then ""
  else if d.contextAware then
    if segment.toList.contains '-' && !extendedLocaleRegex segment then ""
    else if falsePositives.contains segment then ""
    else if segment = "it" && position > 0 &&
        (allSegments.headD "" == "api" || allSegments.headD "" == "tech" ||
          allSegments.headD "" == "technology") then ""
    else if position > 0 && allSegments.headD "" == "api" &&
        allSegments.length < 3 then ""
    else segment
  else segment

/-- `Detector.detectPathPrefix`. -/
def detectPathPrefix (d : Detector) (path : String) : String × Int :=
  if path = "" || path = "/" then ("", -1)
  else
    let segments := splitStr (trimSlashes path) '/'
    if segments.length = 0 then ("", -1)
    else
      let l0 := validatePathSegmentAsLocale d (segments.headD "") segments 0
      if l0 ≠ "" then (l0, 0)
      else if segments.length > 1 then
        let l1 := validatePathSegmentAsLocale d (segments.getD 1 "") segments 1
        if l1 ≠ "" then (l1, 1) else ("", -1)
      else ("", -1)

/-- The loop body of `Detector.detectQueryParam` over the remaining candidate
parameter names. -/
def detectQueryParamAux (query : List (String × List String)) :
    List String → String
  | [] => ""
  | param :: rest =>
    let val := valuesGet query param
    if val ≠ "" then
      let val2 := lowerStr val
      if localeCodes val2 || extendedLocaleRegex val2 then val2
      else detectQueryParamAux query rest
    else detectQueryParamAux query rest

/-- The loop test of `Detector.detectQueryParam` on one candidate name: the
parameter is present with a non-empty value whose lowercased form matches the
code table or the extended pattern. -/
def queryMatches (query : List (String × List String)) (param : String) : Bool :=
  valuesGet query param ≠ "" &&
    (localeCodes (lowerStr (valuesGet query param)) ||
      extendedLocaleRegex (lowerStr (valuesGet query param)))

/-- `Detector.detectQueryParam`. -/
def detectQueryParam (_d : Detector) (query : List (String × List String)) :
    String :=
  detectQueryParamAux query localeQueryParams

/-- `Detector.removeSubdomainLocale` (the produced string, in parsed form). -/
def removeSubdomainLocale (_d : Detector) (u : GoURL) (_locale : String) : GoURL :=
  match splitStr u.host '.' with
  | _ :: rest@(_ :: _) => { u with host := joinStr rest '.' }
  | _ => u

/-- `Detector.removePathLocale` (the produced string, in parsed form). -/
def removePathLocale (_d : Detector) (u : GoURL) (_locale : String)
    (position : Int) : GoURL :=
  let segments := splitStr (trimSlashes u.path) '/'
  let newSegments := (segments.enum.filter (fun p => (p.1 : Int) ≠ position)).map Prod.snd
  let newPath := if newSegments.length = 0 then "/" else "/" ++ joinStr newSegments '/'
  { u with path := newPath }

/-- `Detector.removeQueryLocale` (the produced string, in parsed form). -/
def removeQueryLocale (_d : Detector) (u : GoURL) (locale : String) : GoURL :=
  let q := localeQueryParams.foldl
    (fun q param => if lowerStr (valuesGet q param) = locale then valuesDel q param else q)
    u.query
  { u with query := q }

/-- `Detector.Detect`.  Parsing the raw URL cannot fail in the model (the
input is already a parsed `GoURL`), so the `error` result is dropped. -/
def Detect (d : Detector) (u : GoURL) : LocalizedURL :=
  let result : LocalizedURL :=
    { BaseURL := u, Locale := "", LocaleType := LocaleType.none,
      OriginalURL := u, Position := 0 }
  let sub := detectSubdomain d u.host
  if sub ≠ "" then
    { result with
      Locale := sub,
      LocaleType := LocaleType.subdomain,
      BaseURL := removeSubdomainLocale d u sub }
  else
    let pp := detectPathPrefix d u.path
    if pp.1 ≠ "" then
      { result with
        Locale := pp.1,
        LocaleType := LocaleType.path,
        Position := pp.2,
        BaseURL := removePathLocale d u pp.1 pp.2 }
    else
      let qp := detectQueryParam d u.query
      if qp ≠ "" then
        { result with
          Locale := qp,
          LocaleType := LocaleType.query,
          BaseURL := removeQueryLocale d u qp }
      else result

/-- `TranslationGroup` of `translations.go`. -/
structure TranslationGroup where
  Canonical : String
  Variants : List String
deriving DecidableEq, Repr

/-- `commonTranslations` of `translations.go`. -/
def commonTranslations : List TranslationGroup :=
  [{ Canonical := "about",
     Variants := ["about", "about-us", "aboutus",
       "sobre-nosotros", "sobre", "acerca-de", "acerca", "quienes-somos",
       "chi-siamo", "su-di-noi", "chi-sono", "riguardo",
       "a-propos", "qui-sommes-nous",
       "uber-uns", "ueber-uns", "wir",
       "sobre-nos", "quem-somos",
       "o-nas", "o-firme",
       "hakkimizda", "hakkinda",
       "tentang-kami", "tentang"] },
   { Canonical := "products",
     Variants := ["products", "product",
       "productos", "producto",
       "prodotti", "prodotto",
       "produits", "produit",
       "produkte", "produkt",
       "produtos", "produto",
       "produkty", "produkt",
       "urunler", "urun"] },
   { Canonical := "services",
     Variants := ["services", "service",
       "servicios", "servicio",
       "servizi", "servizio",
       "services", "service",
       "dienstleistungen", "dienste",
       "servicos", "servico",
       "uslugi", "usluga",
       "hizmetler", "hizmet"] },
   { Canonical := "contact",
     Variants := ["contact", "contact-us", "contactus",
       "contacto", "contactanos", "contactenos",
       "contatti", "contattaci",
       "contact", "contactez-nous",
       "kontakt", "kontaktieren",
       "contato", "fale-conosco",
       "kontakt", "kontaktuj",
       "iletisim"] },
   { Canonical := "news",
     Variants := ["news", "blog", "articles",
       "noticias", "novedades", "articulos",
       "notizie", "novita", "articoli",
       "nouvelles", "actualites", "blog",
       "nachrichten", "neuigkeiten", "blog",
       "noticias", "novidades", "artigos",
       "wiadomosci", "aktualnosci",
       "haberler", "blog"] },
   { Canonical := "help",
     Variants := ["help", "support", "faq",
       "ayuda", "soporte", "preguntas-frecuentes",
       "aiuto", "supporto", "domande-frequenti",
       "aide", "support", "faq",
       "hilfe", "support", "faq",
       "ajuda", "suporte", "perguntas-frequentes",
       "pomoc", "wsparcie",
       "yardim", "destek"] },
   { Canonical := "privacy",
     Variants := ["privacy", "privacy-policy",
       "privacidad", "politica-de-privacidad",
       "privacy", "politica-sulla-privacy",
       "confidentialite", "politique-de-confidentialite",
       "datenschutz", "datenschutzrichtlinie",
       "privacidade", "politica-de-privacidade",
       "prywatnosc", "polityka-prywatnosci",
       "gizlilik", "gizlilik-politikasi"] },
   { Canonical := "terms",
     Variants := ["terms", "terms-of-service", "terms-and-conditions",
       "terminos", "terminos-de-servicio", "condiciones",
       "termini", "termini-di-servizio", "condizioni",
       "conditions", "conditions-utilisation",
       "bedingungen", "nutzungsbedingungen", "agb",
       "termos", "termos-de-servico", "condicoes",
       "warunki", "regulamin",
       "sartlar", "kullanim-kosullari"] },
   { Canonical := "account",
     Variants := ["account", "profile", "user",
       "cuenta", "perfil", "usuario",
       "account", "profilo", "utente",
       "compte", "profil", "utilisateur",
       "konto", "profil", "benutzer",
       "conta", "perfil", "usuario",
       "konto", "profil", "uzytkownik",
       "hesap", "profil", "kullanici"] },
   { Canonical := "login",
     Variants := ["login", "signin", "sign-in",
       "iniciar-sesion", "ingresar", "entrar",
       "accedi", "accesso", "login",
       "connexion", "se-connecter",
       "anmelden", "einloggen", "login",
       "entrar", "login", "iniciar-sessao",
       "zaloguj", "logowanie",
       "giris", "giris-yap"] },
   { Canonical := "signup",
     Variants := ["signup", "register", "sign-up",
       "registrarse", "registro", "crear-cuenta",
       "registrati", "registrazione", "iscriviti",
       "inscription", "sinscrire", "creer-compte",
       "registrieren", "anmelden", "konto-erstellen",
       "cadastro", "registrar", "criar-conta",
       "rejestracja", "zarejestruj",
       "kayit", "kayit-ol", "uye-ol"] },
   { Canonical := "home",
     Variants := ["home", "index", "main",
       "inicio", "principal", "casa",
       "home", "inizio", "principale",
       "accueil", "index", "principale",
       "startseite", "home", "hauptseite",
       "inicio", "pagina-inicial", "principal",
       "strona-glowna", "start",
       "ana-sayfa", "anasayfa", "ev"] },
   { Canonical := "search",
     Variants := ["search", "find",
       "buscar", "busqueda", "encontrar",
       "cerca", "ricerca", "trova",
       "recherche", "rechercher", "trouver",
       "suche", "suchen", "finden",
       "busca", "buscar", "procurar",
       "szukaj", "wyszukiwanie",
       "ara", "arama", "bul"] },
   { Canonical := "cart",
     Variants := ["cart", "basket", "shopping-cart",
       "carrito", "cesta", "canasta",
       "carrello", "cestino",
       "panier", "chariot",
       "warenkorb", "einkaufswagen",
       "carrinho", "cesta",
       "koszyk",
       "sepet", "alisveris-sepeti"] },
   { Canonical := "checkout",
     Variants := ["checkout", "payment", "pay",
       "pagar", "pago", "finalizar-compra",
       "checkout", "pagamento", "paga",
       "paiement", "payer", "commander",
       "kasse", "bezahlen", "zahlung",
       "pagamento", "pagar", "finalizar",
       "kasa", "platnosc",
       "odeme", "odemeyap"] }]

/-- `normalizeForMatching` of `translations.go`: lowercase, strip `-` and `_`,
naive depluralization. -/
def normalizeForMatching (s : String) : String :=
  let l := (s.toList.map Char.toLower).filter (fun c => c ≠ '-' ∧ c ≠ '_')
  if l.length > 3 && l.getLast? == some 's' then String.mk l.dropLast
  else String.mk l

/-- Reading a Go map built by a sequence of writes, kept here as the write
list in order: the last write to the key wins. -/
def lastLookup (l : List (String × String)) (k : String) : Option String :=
  l.foldl (fun acc p => if p.1 = k then some p.2 else acc) Option.none

/-- `TranslationMatcher` of `translations.go` (the unused `groupIndex` field
is omitted; `normalizedIndex` is kept as the ordered write list). -/
structure TranslationMatcher where
  normalizedIndex : List (String × String)
deriving DecidableEq, Repr

/-- `NewTranslationMatcher`: for each group, map every normalized variant to
the group's normalized canonical name. -/
def NewTranslationMatcher : TranslationMatcher :=
  { normalizedIndex :=
      commonTranslations.foldl
        (fun acc g =>
          acc ++ g.Variants.map
            (fun v => (normalizeForMatching v, normalizeForMatching g.Canonical)))
        [] }

/-- `TranslationMatcher.AreTranslations`. -/
def AreTranslations (tm : TranslationMatcher) (seg1 seg2 : String) : Bool :=
  let norm1 := normalizeForMatching seg1
  let norm2 := normalizeForMatching seg2
  if norm1 = norm2 then true
  else
    match lastLookup tm.normalizedIndex norm1, lastLookup tm.normalizedIndex norm2 with
    | some canonical1, some canonical2 => canonical1 = canonical2
    | _, _ => false

/-- `TranslationMatcher.GetCanonical`: canonical name for a known normalized
variant, otherwise the original segment unchanged. -/
def GetCanonical (tm : TranslationMatcher) (segment : String) : String :=
  match lastLookup tm.normalizedIndex (normalizeForMatching segment) with
  | some canonical => canonical
  | Option.none => segment

/-- Insert into a sorted list (Go byte order on strings). -/
def insertSorted (x : String) : List String → List String
  | [] => [x]
  | y :: ys => if strLeB x y then x :: y :: ys else y :: insertSorted x ys

/-- `sortStrings` of `grouper.go`: the Go code bubble-sorts; any comparison
sort computes the same sorted list because the order is total and equal
strings are identical, so the model uses insertion sort. -/
def sortStrings (strs : List String) : List String := strs.foldr insertSorted []

/-- `LocaleGroup` of `grouper.go`; `URLs` is the locale → first-seen token
map in insertion order. -/
structure LocaleGroup where
  BaseKey : String
  URLs : List (String × LocalizedURL)
  BestURL : Option LocalizedURL
  Priority : List String
deriving DecidableEq, Repr

/-- `Grouper` of `grouper.go`; `groups` is the key → group map in insertion
order. -/
structure Grouper where
  detector : Detector
  translationMatcher : TranslationMatcher
  groups : List (String × LocaleGroup)
  Priority : List String
deriving DecidableEq, Repr

/-- `NewGrouper`: an empty priority list defaults to `["en"]`. -/
def NewGrouper (priority : List String) : Grouper :=
  let priority2 := if priority.length = 0 then ["en"] else priority
  { detector := NewDetector, translationMatcher := NewTranslationMatcher,
    groups := [], Priority := priority2 }

/-- `Grouper.normalizePath`: lowercase each segment and canonicalize it
through the translation matcher. -/
def normalizePath (g : Grouper) (path : String) : String :=
  if path = "" || path = "/" then "/"
  else
    let segments := splitStr (trimSlashes path) '/'
    let normalized := segments.map (fun seg => GetCanonical g.translationMatcher (lowerStr seg))
    "/" ++ joinStr normalized '/'

/-- `Grouper.generateGroupKey`.  The Go code re-parses `localized.BaseURL`;
the model reads the carried parsed form (round-trip convention), so the
parse-error fallback is dropped.  `paramNames` ranges over the distinct query
parameter names, as Go's `u.Query()` map does. -/
def generateGroupKey (g : Grouper) (localized : LocalizedURL) : String :=
  let u := localized.BaseURL
  let host := trimPrefixStr (lowerStr u.host) "www."
  let path := normalizePath g u.path
  let key := host ++ path
  if u.query ≠ [] then
    let paramNames := ((u.query.map Prod.fst).dedup).map lowerStr
    if paramNames.length > 0 then key ++ "?" ++ joinStr (sortStrings paramNames) '&'
    else key
  else key

/-- `Grouper.updateBestURL`: first listed priority locale present, else the
pseudo-locale `"default"`, else the first stored entry; with no entries the
Go loop body never runs and `BestURL` keeps its old value. -/
def updateBestURL (g : Grouper) (group : LocaleGroup) : LocaleGroup :=
  match g.Priority.findSome? (fun priorityLocale => alLookup group.URLs priorityLocale) with
  | some u2 => { group with BestURL := some u2 }
  | Option.none =>
    match alLookup group.URLs "default" with
    | some u2 => { group with BestURL := some u2 }
    | Option.none =>
      match group.URLs with
      | [] => group
      | (_, u2) :: _ => { group with BestURL := some u2 }

/-- `Grouper.updateBestURL` with Go's map-iteration nondeterminism explicit:
the fallback `for _, url := range group.URLs { group.BestURL = url; return }`
reads the first entry of a freshly randomised iteration over the unordered
map, i.e. an arbitrary stored entry; `k` selects which (index `k` modulo the
number of entries).  `updateBestURL` is the instance `k = 0`. -/
def updateBestURLAt (k : Nat) (g : Grouper) (group : LocaleGroup) : LocaleGroup :=
  match g.Priority.findSome? (fun priorityLocale => alLookup group.URLs priorityLocale) with
  | some u2 => { group with BestURL := some u2 }
  | Option.none =>
    match alLookup group.URLs "default" with
    | some u2 => { group with BestURL := some u2 }
    | Option.none =>
      match group.URLs with
      | [] => group
      | p :: rest =>
        { group with
          BestURL := some (((p :: rest).getD (k % (p :: rest).length) p).2) }

/-- `Grouper.Add`.  `Detect` cannot fail in the model, so the error return is
dropped and the updated grouper is the result. -/
def Grouper.Add (g : Grouper) (rawURL : GoURL) : Grouper :=
  let localized := Detect g.detector rawURL
  let groupKey := generateGroupKey g localized
  let group :=
    match alLookup g.groups groupKey with
    | some gr => gr
    | Option.none =>
      { BaseKey := groupKey, URLs := [], BestURL := Option.none, Priority := g.Priority }
  let locale := if localized.Locale = "" then "default" else localized.Locale
  let group2 :=
    if (alLookup group.URLs locale).isSome then group
    else { group with URLs := group.URLs ++ [(locale, localized)] }
  let group3 := updateBestURL g group2
  { g with groups := alSet g.groups groupKey group3 }

/-- `Grouper.Add` with the map-iteration choice of the best-URL fallback
explicit (`k` as in `updateBestURLAt`); every execution of the Go `Add` is
`AddAt k` for some `k`, and the deterministic `Add` is `AddAt 0`. -/
def Grouper.AddAt (k : Nat) (g : Grouper) (rawURL : GoURL) : Grouper :=
  let localized := Detect g.detector rawURL
  let groupKey := generateGroupKey g localized
  let group :=
    match alLookup g.groups groupKey with
    | some gr => gr
    | Option.none =>
      { BaseKey := groupKey, URLs := [], BestURL := Option.none,
        Priority := g.Priority }
  let locale := if localized.Locale = "" then "default" else localized.Locale
  let group2 :=
    if (alLookup group.URLs locale).isSome then group
    else { group with URLs := group.URLs ++ [(locale, localized)] }
  let group3 := updateBestURLAt k g group2
  { g with groups := alSet g.groups groupKey group3 }

/-- `Grouper.GetBestURLs`. -/
def GetBestURLs (g : Grouper) : List LocalizedURL :=
  g.groups.filterMap (fun p => p.2.BestURL)

/-- `Grouper.validateSimilarity`.  The parse of each base URL is carried in
the token (round-trip convention), so the parse-error branch is dropped; the
float threshold `float64(matchCount) >= float64(len)*0.7` is modelled exactly
as `10 * matchCount ≥ 7 * len`. -/
def validateSimilarity (g : Grouper) (loc1 loc2 : LocalizedURL) : Bool :=
  let u1 := loc1.BaseURL
  let u2 := loc2.BaseURL
  let host1 := lowerStr (trimPrefixStr u1.host "www.")
  let host2 := lowerStr (trimPrefixStr u2.host "www.")
  if host1 ≠ host2 then false
  else
    let seg1 := splitStr (trimSlashes u1.path) '/'
    let seg2 := splitStr (trimSlashes u2.path) '/'
    if seg1.length ≠ seg2.length then false
    else
      let matchCount :=
        (seg1.zip seg2).countP
          (fun p => p.1 == p.2 || AreTranslations g.translationMatcher p.1 p.2)
      decide (10 * matchCount ≥ 7 * seg1.length)

/-- `Grouper.ShouldGroup` (parse failures cannot arise in the model). -/
def ShouldGroup (g : Grouper) (url1 url2 : GoURL) : Bool :=
  let loc1 := Detect g.detector url1
  let loc2 := Detect g.detector url2
  let key1 := generateGroupKey g loc1
  let key2 := generateGroupKey g loc2
  if key1 = key2 then validateSimilarity g loc1 loc2 else false

/-- `Score` of `scorer.go` (`URL` carried in parsed form). -/
structure Score where
  URL : GoURL
  LocaleScore : Int
  CompletenessScore : Int
  FirstSeenBonus : Int
  TotalScore : Int
deriving DecidableEq, Repr

/-- `Scorer` of `scorer.go`; `localePriority` as an association list with
overwrite-on-set. -/
structure Scorer where
  localePriority : List (String × Int)
deriving DecidableEq, Repr

/-- `NewScorer`: `"default"` scores 50, the i-th listed locale (i from 0)
scores `100 + (N − i) * 10`. -/
def NewScorer (priorities : List String) : Scorer :=
  { localePriority :=
      priorities.enum.foldl
        (fun m p => alSet m p.2 (100 + ((priorities.length : Int) - (p.1 : Int)) * 10))
        [("default", 50)] }

/-- `Scorer.calculateCompleteness`.  The Go code parses the raw URL string
(error gives 0); the model reads the carried parsed form. -/
def calculateCompleteness (_s : Scorer) (u : GoURL) : Int :=
  let score : Int := ((u.query.map Prod.fst).dedup.length : Int) * 2
  let pathSegments := splitStr (trimSlashes u.path) '/'
  let score :=
    if pathSegments.length > 0 && pathSegments.headD "" ≠ "" then
      score + (pathSegments.length : Int)
    else score
  if score > 20 then 20 else score

/-- `Scorer.Score`. -/
def Scorer.Score (s : Scorer) (localized : LocalizedURL) (isFirstSeen : Bool) : Score :=
  let locale := if localized.Locale = "" then "default" else localized.Locale
  let localeScore : Int :=
    match alLookup s.localePriority locale with
    | some priorityScore => priorityScore
    | Option.none => 25
  let completeness := calculateCompleteness s localized.OriginalURL
  let bonus : Int := if isFirstSeen then 10 else 0
  { URL := localized.OriginalURL, LocaleScore := localeScore,
    CompletenessScore := completeness, FirstSeenBonus := bonus,
    TotalScore := localeScore + completeness + bonus }

/-- The best-URL selection rule of `updateBestURL` as a pure function of the
priority list and the stored locale map: first listed locale present, else
`"default"`, else the first stored entry. -/
def bestOf (priority : List String) (urls : List (String × LocalizedURL)) :
    Option LocalizedURL :=
  match priority.findSome? (fun priorityLocale => alLookup urls priorityLocale) with
  | some u2 => some u2
  | Option.none =>
    match alLookup urls "default" with
    | some u2 => some u2
    | Option.none =>
      match urls with
      | [] => Option.none
      | (_, u2) :: _ => some u2

/-- The group key `Grouper.Add` computes for a URL. -/
def addKey (g : Grouper) (u : GoURL) : String :=
  generateGroupKey g (Detect g.detector u)

/-- The locale value `Grouper.Add` stores a URL under (`"default"` when no
locale was detected). -/
def addLoc (g : Grouper) (u : GoURL) : String :=
  if (Detect g.detector u).Locale = "" then "default" else (Detect g.detector u).Locale

/-- The group (before the best-URL update) that `Grouper.Add` writes back:
the looked-up or fresh group, extended with the new token unless its locale
is already present. -/
def addGroup2 (g : Grouper) (u : GoURL) : LocaleGroup :=
  let localized := Detect g.detector u
  let group :=
    match alLookup g.groups (addKey g u) with
    | some gr => gr
    | Option.none =>
      { BaseKey := addKey g u, URLs := [], BestURL := Option.none,
        Priority := g.Priority }
  if (alLookup group.URLs (addLoc g u)).isSome then group
  else { group with URLs := group.URLs ++ [(addLoc g u, localized)] }

/-- Grouper state invariant: every stored group is non-empty and its best
URL is the `bestOf` selection over its stored entries. -/
def GrouperInv (g : Grouper) : Prop :=
  ∀ k gr, alLookup g.groups k = some gr →
    gr.URLs ≠ [] ∧ gr.BestURL = bestOf g.Priority gr.URLs

/-- Grouper state invariant under arbitrary map-iteration choices (states
reachable by `AddAt` with any choice sequence): every stored group is
non-empty, its best URL is the `bestOf` selection whenever that selection is
determined by a listed priority locale or a `"default"` entry, and its best
URL is always one of its stored entries. -/
def GrouperInvW (g : Grouper) : Prop :=
  ∀ k gr, alLookup g.groups k = some gr →
    gr.URLs ≠ [] ∧
    (((g.Priority.findSome? (fun pl => alLookup gr.URLs pl)).isSome = true ∨
        (alLookup gr.URLs "default").isSome = true) →
      gr.BestURL = bestOf g.Priority gr.URLs) ∧
    (∃ l u2, (l, u2) ∈ gr.URLs ∧ gr.BestURL = some u2)

/-- A URL is present in a grouper state: its group key is stored and its
locale value has an entry in that group. -/
def presentIn (g : Grouper) (u : GoURL) : Prop :=
  ∃ gr, alLookup g.groups (addKey g u) = some gr ∧
    (alLookup gr.URLs (addLoc g u)).isSome = true

/-- Example URL `https://example.com/a/b?x=1` used by concrete instances. -/
def exU1 : GoURL :=
  { scheme := "https", host := "example.com", path := "/a/b", query := [("x", ["1"])] }

/-- Example token: `exU1` detected as query locale `es`. -/
def exTok1 : LocalizedURL :=
  { BaseURL := exU1, Locale := "es", LocaleType := LocaleType.query,
    OriginalURL := exU1, Position := 0 }

/-- Example URL `https://e.com/a//b` (empty middle path segment). -/
def exU2 : GoURL :=
  { scheme := "https", host := "e.com", path := "/a//b", query := [] }

/-- Example token: `exU2` with no detected locale. -/
def exTok2 : LocalizedURL :=
  { BaseURL := exU2, Locale := "", LocaleType := LocaleType.none,
    OriginalURL := exU2, Position := 0 }

/-- Example URL `https://en.example.com/`. -/
def exU3 : GoURL :=
  { scheme := "https", host := "en.example.com", path := "/", query := [] }

/-- Example token: `exU3` detected as subdomain locale `en`. -/
def exTok3 : LocalizedURL :=
  { BaseURL := { scheme := "https", host := "example.com", path := "/", query := [] },
    Locale := "en", LocaleType := LocaleType.subdomain,
    OriginalURL := exU3, Position := 0 }

/-- Concrete add list for grouper instances: the single URL `exU3`. -/
def c3Adds : List GoURL := [exU3]

/-- The group key of `exU3` in a fresh grouper with priority `["en"]`. -/
def c3Key : String := addKey (NewGrouper ["en"]) exU3

/-- The group stored after adding `exU3` to a fresh grouper with priority
`["en"]`. -/
def c3Group : LocaleGroup :=
  { BaseKey := c3Key, URLs := [("en", Detect NewDetector exU3)],
    BestURL := some (Detect NewDetector exU3), Priority := ["en"] }

/-- Example URL `https://example.com/en/about`. -/
def c6uEn : GoURL :=
  { scheme := "https", host := "example.com", path := "/en/about", query := [] }

/-- Example URL `https://example.com/es/about`. -/
def c6uEs : GoURL :=
  { scheme := "https", host := "example.com", path := "/es/about", query := [] }

/-- Grouper state with priority `["fr"]` holding `c6uEn` and `c6uEs`: one
group (key `example.com/about`) with entries for `en` and `es`, no `"fr"` and
no `"default"` entry, so its best URL comes from the arbitrary fallback.
Built with the deterministic `Add`, i.e. the choice-0 executions. -/
def c6state : Grouper :=
  List.foldl Grouper.Add (NewGrouper ["fr"]) [c6uEn, c6uEs]

/-- The group key of `c6uEn` (and `c6uEs`) in `c6state`. -/
def c6key : String := addKey (NewGrouper ["fr"]) c6uEn

/-! ## Supporting lemmas -/

theorem detect_subdomain_branch (d : Detector) (u : GoURL)
    (h : detectSubdomain d u.host ≠ "") :
    Detect d u =
      { BaseURL := removeSubdomainLocale d u (detectSubdomain d u.host),
        Locale := detectSubdomain d u.host, LocaleType := LocaleType.subdomain,
        OriginalURL := u, Position := 0 } := by
  simp [Detect, h]

theorem detect_path_branch (d : Detector) (u : GoURL)
    (h0 : detectSubdomain d u.host = "")
    (h1 : (detectPathPrefix d u.path).1 ≠ "") :
    Detect d u =
      { BaseURL := removePathLocale d u (detectPathPrefix d u.path).1
          (detectPathPrefix d u.path).2,
        Locale := (detectPathPrefix d u.path).1, LocaleType := LocaleType.path,
        OriginalURL := u, Position := (detectPathPrefix d u.path).2 } := by
  simp [Detect, h0, h1]

theorem detect_query_branch (d : Detector) (u : GoURL)
    (h0 : detectSubdomain d u.host = "")
    (h1 : (detectPathPrefix d u.path).1 = "")
    (h2 : detectQueryParam d u.query ≠ "") :
    Detect d u =
      { BaseURL := removeQueryLocale d u (detectQueryParam d u.query),
        Locale := detectQueryParam d u.query, LocaleType := LocaleType.query,
        OriginalURL := u, Position := 0 } := by
  simp [Detect, h0, h1, h2]

theorem detect_none_branch (d : Detector) (u : GoURL)
    (h0 : detectSubdomain d u.host = "")
    (h1 : (detectPathPrefix d u.path).1 = "")
    (h2 : detectQueryParam d u.query = "") :
    Detect d u =
      { BaseURL := u, Locale := "", LocaleType := LocaleType.none,
        OriginalURL := u, Position := 0 } := by
  simp [Detect, h0, h1, h2]

theorem detect_localeType_path_inv (d : Detector) (u : GoURL)
    (h : (Detect d u).LocaleType = LocaleType.path) :
    detectSubdomain d u.host = "" ∧ (detectPathPrefix d u.path).1 ≠ "" ∧
      Detect d u =
        { BaseURL := removePathLocale d u (detectPathPrefix d u.path).1
            (detectPathPrefix d u.path).2,
          Locale := (detectPathPrefix d u.path).1, LocaleType := LocaleType.path,
          OriginalURL := u, Position := (detectPathPrefix d u.path).2 } := by
  by_cases c0 : detectSubdomain d u.host = ""
  · by_cases c1 : (detectPathPrefix d u.path).1 = ""
    · by_cases c2 : detectQueryParam d u.query = ""
      · rw [detect_none_branch d u c0 c1 c2] at h; simp at h
      · rw [detect_query_branch d u c0 c1 c2] at h; simp at h
    · exact ⟨c0, c1, detect_path_branch d u c0 c1⟩
  · rw [detect_subdomain_branch d u c0] at h; simp at h

theorem detect_localeType_query_inv (d : Detector) (u : GoURL)
    (h : (Detect d u).LocaleType = LocaleType.query) :
    detectSubdomain d u.host = "" ∧ (detectPathPrefix d u.path).1 = "" ∧
      detectQueryParam d u.query ≠ "" ∧
      Detect d u =
        { BaseURL := removeQueryLocale d u (detectQueryParam d u.query),
          Locale := detectQueryParam d u.query, LocaleType := LocaleType.query,
          OriginalURL := u, Position := 0 } := by
  by_cases c0 : detectSubdomain d u.host = ""
  · by_cases c1 : (detectPathPrefix d u.path).1 = ""
    · by_cases c2 : detectQueryParam d u.query = ""
      · rw [detect_none_branch d u c0 c1 c2] at h; simp at h
      · exact ⟨c0, c1, c2, detect_query_branch d u c0 c1 c2⟩
    · rw [detect_path_branch d u c0 c1] at h; simp at h
  · rw [detect_subdomain_branch d u c0] at h; simp at h

theorem detect_localeType_subdomain_inv (d : Detector) (u : GoURL)
    (h : (Detect d u).LocaleType = LocaleType.subdomain) :
    detectSubdomain d u.host ≠ "" ∧
      Detect d u =
        { BaseURL := removeSubdomainLocale d u (detectSubdomain d u.host),
          Locale := detectSubdomain d u.host, LocaleType := LocaleType.subdomain,
          OriginalURL := u, Position := 0 } := by
  by_cases c0 : detectSubdomain d u.host = ""
  · by_cases c1 : (detectPathPrefix d u.path).1 = ""
    · by_cases c2 : detectQueryParam d u.query = ""
      · rw [detect_none_branch d u c0 c1 c2] at h; simp at h
      · rw [detect_query_branch d u c0 c1 c2] at h; simp at h
    · rw [detect_path_branch d u c0 c1] at h; simp at h
  · exact ⟨c0, detect_subdomain_branch d u c0⟩

/-! ## C1 -/

/-- C1: `Detect` examines subdomain, then path, then query; the first signal
found wins and determines the reported locale while lower-priority markers
are ignored, and with no signal the result is kind `none`, empty locale, and
the base URL is the input unchanged. -/
theorem detect_priority_order (u : GoURL) :
    (detectSubdomain NewDetector u.host ≠ "" →
      (Detect NewDetector u).LocaleType = LocaleType.subdomain ∧
      (Detect NewDetector u).Locale = detectSubdomain NewDetector u.host) ∧
    (detectSubdomain NewDetector u.host = "" →
      (detectPathPrefix NewDetector u.path).1 ≠ "" →
      (Detect NewDetector u).LocaleType = LocaleType.path ∧
      (Detect NewDetector u).Locale = (detectPathPrefix NewDetector u.path).1) ∧
    (detectSubdomain NewDetector u.host = "" →
      (detectPathPrefix NewDetector u.path).1 = "" →
      detectQueryParam NewDetector u.query ≠ "" →
      (Detect NewDetector u).LocaleType = LocaleType.query ∧
      (Detect NewDetector u).Locale = detectQueryParam NewDetector u.query) ∧
    (detectSubdomain NewDetector u.host = "" →
      (detectPathPrefix NewDetector u.path).1 = "" →
      detectQueryParam NewDetector u.query = "" →
      (Detect NewDetector u).LocaleType = LocaleType.none ∧
      (Detect NewDetector u).Locale = "" ∧
      (Detect NewDetector u).BaseURL = u) := by
  refine ⟨fun h0 => ?_, fun h0 h1 => ?_, fun h0 h1 h2 => ?_, fun h0 h1 h2 => ?_⟩
  · rw [detect_subdomain_branch NewDetector u h0]; exact ⟨rfl, rfl⟩
  · rw [detect_path_branch NewDetector u h0 h1]; exact ⟨rfl, rfl⟩
  · rw [detect_query_branch NewDetector u h0 h1 h2]; exact ⟨rfl, rfl⟩
  · rw [detect_none_branch NewDetector u h0 h1 h2]; exact ⟨rfl, rfl, rfl⟩

/-- C1 witness: a URL carrying subdomain, path and query markers at once
reports only the subdomain one, and a URL with no marker comes back
unchanged with kind `none`. -/
theorem detect_priority_order_witness :
    (Detect NewDetector
        { scheme := "https", host := "en.example.com", path := "/fr/page",
          query := [("lang", ["de"])] }).LocaleType = LocaleType.subdomain ∧
    (Detect NewDetector
        { scheme := "https", host := "example.com", path := "/page",
          query := [] }).BaseURL =
      { scheme := "https", host := "example.com", path := "/page", query := [] } := by
  constructor
  · exact ((detect_priority_order
      { scheme := "https", host := "en.example.com", path := "/fr/page",
        query := [("lang", ["de"])] }).1 (by decide)).1
  · exact (((detect_priority_order
      { scheme := "https", host := "example.com", path := "/page",
        query := [] }).2.2.2 (by decide) (by decide) (by decide)).2.2)

theorem splitOnChar_ne_nil (c : Char) (l : List Char) : splitOnChar c l ≠ [] := by
  induction l with
  | nil => simp [splitOnChar]
  | cons x xs ih =>
    simp only [splitOnChar]
    split
    · simp
    · split
      · simp
      · simp

theorem splitStr_ne_nil (s : String) (c : Char) : splitStr s c ≠ [] := by
  simp [splitStr, splitOnChar_ne_nil]

theorem headD_eq_getD_zero {α : Type} (l : List α) (d : α) : l.headD d = l.getD 0 d := by
  cases l <;> rfl

theorem validate_ne_inv (s : String) (segs : List String) (pos : Int)
    (h : validatePathSegmentAsLocale NewDetector s segs pos ≠ "") :
    validatePathSegmentAsLocale NewDetector s segs pos = lowerStr s ∧
    (localeCodes (lowerStr s) || extendedLocaleRegex (lowerStr s)) = true ∧
    lowerStr s ∉ falsePositives ∧
    ¬(lowerStr s = "it" ∧ 0 < pos ∧
      (segs.headD "" = "api" ∨ segs.headD "" = "tech" ∨ segs.headD "" = "technology")) ∧
    (0 < pos ∧ segs.headD "" = "api" → 3 ≤ segs.length) := by
  revert h
  unfold validatePathSegmentAsLocale
  simp only [NewDetector]
  split_ifs with c1 c2 c3 c4 c5 <;> intro h
  · exact absurd rfl h
  · exact absurd rfl h
  · exact absurd rfl h
  · exact absurd rfl h
  · exact absurd rfl h
  · have hcode : (localeCodes (lowerStr s) || extendedLocaleRegex (lowerStr s)) = true := by
      cases hb : (localeCodes (lowerStr s) || extendedLocaleRegex (lowerStr s))
      · exact absurd (by simp [hb]) c1
      · rfl
    refine ⟨rfl, hcode, by simpa using c3, ?_, ?_⟩
    · simp only [Bool.and_eq_true, decide_eq_true_eq, beq_iff_eq, Bool.or_eq_true] at c4
      intro hc
      exact c4 (by tauto)
    · simp only [Bool.and_eq_true, decide_eq_true_eq, beq_iff_eq] at c5
      intro hc
      by_contra hlen
      exact c5 ⟨⟨hc.1, hc.2⟩, by omega⟩

theorem detectPathPrefix_inv (path : String)
    (h : (detectPathPrefix NewDetector path).1 ≠ "") :
    (detectPathPrefix NewDetector path
        = (validatePathSegmentAsLocale NewDetector
            ((splitStr (trimSlashes path) '/').headD "")
            (splitStr (trimSlashes path) '/') 0, 0)
      ∧ validatePathSegmentAsLocale NewDetector
          ((splitStr (trimSlashes path) '/').headD "")
          (splitStr (trimSlashes path) '/') 0 ≠ "")
    ∨ (detectPathPrefix NewDetector path
        = (validatePathSegmentAsLocale NewDetector
            ((splitStr (trimSlashes path) '/').getD 1 "")
            (splitStr (trimSlashes path) '/') 1, 1)
      ∧ 1 < (splitStr (trimSlashes path) '/').length
      ∧ validatePathSegmentAsLocale NewDetector
          ((splitStr (trimSlashes path) '/').getD 1 "")
          (splitStr (trimSlashes path) '/') 1 ≠ "") := by
  revert h
  simp only [detectPathPrefix]
  split_ifs with c1 c2 c3 c4 c5 <;> intro h
  · simp at h
  · simp at h
  · exact Or.inl ⟨rfl, c3⟩
  · exact Or.inr ⟨rfl, c4, c5⟩
  · simp at h
  · simp at h

/-! ## C2 -/

/-- C2: a path segment is reported as a path locale only if it matches the
code table or extended pattern, is not in the deny-list, is not `"it"` after
a first segment `"api"`/`"tech"`/`"technology"`, and, at position > 0 under a
first segment `"api"`, only when the path has at least 3 segments. -/
theorem path_signal_only_if (u : GoURL)
    (h : (Detect NewDetector u).LocaleType = LocaleType.path) :
    ∃ i : Nat, (i = 0 ∨ i = 1) ∧
      (Detect NewDetector u).Position = (i : Int) ∧
      i < (splitStr (trimSlashes u.path) '/').length ∧
      (Detect NewDetector u).Locale
        = lowerStr ((splitStr (trimSlashes u.path) '/').getD i "") ∧
      (localeCodes ((Detect NewDetector u).Locale)
        || extendedLocaleRegex ((Detect NewDetector u).Locale)) = true ∧
      (Detect NewDetector u).Locale ∉ falsePositives ∧
      ¬((Detect NewDetector u).Locale = "it" ∧ 0 < i ∧
        ((splitStr (trimSlashes u.path) '/').headD "" = "api" ∨
         (splitStr (trimSlashes u.path) '/').headD "" = "tech" ∨
         (splitStr (trimSlashes u.path) '/').headD "" = "technology")) ∧
      (0 < i ∧ (splitStr (trimSlashes u.path) '/').headD "" = "api" →
        3 ≤ (splitStr (trimSlashes u.path) '/').length) := by
  obtain ⟨c0, hpp, heq⟩ := detect_localeType_path_inv NewDetector u h
  rcases detectPathPrefix_inv u.path hpp with ⟨hcase, hval⟩ | ⟨hcase, hlen, hval⟩
  · obtain ⟨hres, hcode, hfp, hit, hapi⟩ := validate_ne_inv _ _ _ hval
    refine ⟨0, Or.inl rfl, ?_, ?_, ?_, ?_, ?_, ?_, ?_⟩
    · rw [heq]; simp [hcase]
    · exact List.length_pos.mpr (splitStr_ne_nil _ _)
    · rw [heq]; simp only [hcase, ← headD_eq_getD_zero]; exact hres
    · rw [heq]; simp only [hcase]; rw [hres]; exact hcode
    · rw [heq]; simp only [hcase]; rw [hres]; exact hfp
    · intro hc; exact absurd hc.2.1 (by omega)
    · intro hc; exact absurd hc.1 (by omega)
  · obtain ⟨hres, hcode, hfp, hit, hapi⟩ := validate_ne_inv _ _ _ hval
    refine ⟨1, Or.inr rfl, ?_, ?_, ?_, ?_, ?_, ?_, ?_⟩
    · rw [heq]; simp [hcase]
    · exact hlen
    · rw [heq]; simp only [hcase]; exact hres
    · rw [heq]; simp only [hcase]; rw [hres]; exact hcode
    · rw [heq]; simp only [hcase]; rw [hres]; exact hfp
    · rw [heq]; simp only [hcase]; rw [hres]
      intro hc
      exact hit ⟨hc.1, by exact_mod_cast hc.2.1, hc.2.2⟩
    · intro hc
      exact hapi ⟨by exact_mod_cast hc.1, hc.2⟩

/-- C2 witness: `/api/v1/it` keeps its `"it"` segment unsuppressed only when
enough segments exist; here `/en/about` reports a path locale that passed
every filter, in particular it is not deny-listed. -/
theorem path_signal_only_if_witness :
    (Detect NewDetector
      { scheme := "https", host := "example.com", path := "/en/about",
        query := [] }).Locale ∉ falsePositives := by
  obtain ⟨i, hspec⟩ := path_signal_only_if
    { scheme := "https", host := "example.com", path := "/en/about", query := [] }
    (by decide)
  exact hspec.2.2.2.2.2.1

theorem localeCodes_ne_empty (s : String) (h : localeCodes s = true) : s ≠ "" := by
  intro he
  subst he
  exact absurd h (by decide)

theorem removeQueryLocale_host (d : Detector) (u : GoURL) (loc : String) :
    (removeQueryLocale d u loc).host = u.host := by
  unfold removeQueryLocale; rfl

theorem removeQueryLocale_path (d : Detector) (u : GoURL) (loc : String) :
    (removeQueryLocale d u loc).path = u.path := by
  unfold removeQueryLocale; rfl

theorem removePathLocale_host (d : Detector) (u : GoURL) (loc : String) (p : Int) :
    (removePathLocale d u loc p).host = u.host := by
  unfold removePathLocale; rfl

theorem detect_not_subdomain (d : Detector) (v : GoURL)
    (h : detectSubdomain d v.host = "") :
    (Detect d v).LocaleType ≠ LocaleType.subdomain := by
  by_cases c1 : (detectPathPrefix d v.path).1 = ""
  · by_cases c2 : detectQueryParam d v.query = ""
    · rw [detect_none_branch d v h c1 c2]; simp
    · rw [detect_query_branch d v h c1 c2]; simp
  · rw [detect_path_branch d v h c1]; simp

theorem detect_not_path (d : Detector) (v : GoURL)
    (h : (detectPathPrefix d v.path).1 = "") :
    (Detect d v).LocaleType ≠ LocaleType.path := by
  by_cases c0 : detectSubdomain d v.host = ""
  · by_cases c2 : detectQueryParam d v.query = ""
    · rw [detect_none_branch d v c0 h c2]; simp
    · rw [detect_query_branch d v c0 h c2]; simp
  · rw [detect_subdomain_branch d v c0]; simp

/-! ## C10 -/

/-- C10 (amended): the deny-list filter applies only to the path signal, for
deny-listed tokens that are in the ISO code table — exactly
`id, is, or, to, as, no` (third conjunct): such a first host label is
reported as a subdomain locale, and such a value of the `lang` parameter is
reported as a query locale when no higher-priority signal exists.  (The
other deny-listed tokens `in, ad, at, by, go` are not in the code table, so
they are never reported from any component.) -/
theorem denylist_only_filters_path (u : GoURL) :
    (falsePositives.filter (fun c => localeCodes c)
      = ["id", "is", "or", "to", "as", "no"]) ∧
    (2 ≤ (splitStr u.host '.').length →
      lowerStr ((splitStr u.host '.').headD "") ∈ falsePositives →
      localeCodes (lowerStr ((splitStr u.host '.').headD "")) = true →
      (Detect NewDetector u).LocaleType = LocaleType.subdomain ∧
      (Detect NewDetector u).Locale = lowerStr ((splitStr u.host '.').headD "")) ∧
    (detectSubdomain NewDetector u.host = "" →
      (detectPathPrefix NewDetector u.path).1 = "" →
      valuesGet u.query "lang" ∈ falsePositives →
      localeCodes (valuesGet u.query "lang") = true →
      (Detect NewDetector u).LocaleType = LocaleType.query ∧
      (Detect NewDetector u).Locale = valuesGet u.query "lang") := by
  refine ⟨by decide, ?_, ?_⟩
  · intro hlen hfp hcode
    have hsub : detectSubdomain NewDetector u.host
        = lowerStr ((splitStr u.host '.').headD "") := by
      rcases hsp : splitStr u.host '.' with _ | ⟨p0, _ | ⟨p1, rest⟩⟩
      · simp [hsp] at hlen
      · simp [hsp] at hlen
      · rw [hsp] at hcode
        simp only [List.headD] at hcode ⊢
        simp [detectSubdomain, hsp, hcode]
    have hne : detectSubdomain NewDetector u.host ≠ "" := by
      rw [hsub]; exact localeCodes_ne_empty _ hcode
    rw [detect_subdomain_branch NewDetector u hne]
    exact ⟨rfl, hsub⟩
  · intro h0 h1 hfp hcode
    have hlow : lowerStr (valuesGet u.query "lang") = valuesGet u.query "lang" := by
      have : ∀ c ∈ falsePositives, lowerStr c = c := by decide
      exact this _ hfp
    have hnev : valuesGet u.query "lang" ≠ "" := localeCodes_ne_empty _ hcode
    have hq : detectQueryParam NewDetector u.query = valuesGet u.query "lang" := by
      simp only [detectQueryParam, localeQueryParams, detectQueryParamAux, hlow,
        hcode, if_pos hnev, Bool.true_or, if_pos trivial]
    have hqne : detectQueryParam NewDetector u.query ≠ "" := by
      rw [hq]; exact hnev
    rw [detect_query_branch NewDetector u h0 h1 hqne]
    exact ⟨rfl, hq⟩

/-- C10 witness: `id.example.com` is reported as subdomain locale `id`, and
`?lang=id` (with no higher-priority marker) as query locale `id`, although
`id` is on the path deny-list. -/
theorem denylist_only_filters_path_witness :
    (Detect NewDetector
      { scheme := "https", host := "id.example.com", path := "/page",
        query := [] }).LocaleType = LocaleType.subdomain ∧
    (Detect NewDetector
      { scheme := "https", host := "example.com", path := "/page",
        query := [("lang", ["id"])] }).LocaleType = LocaleType.query := by
  constructor
  · exact ((denylist_only_filters_path
      { scheme := "https", host := "id.example.com", path := "/page",
        query := [] }).2.1 (by decide) (by decide) (by decide)).1
  · exact ((denylist_only_filters_path
      { scheme := "https", host := "example.com", path := "/page",
        query := [("lang", ["id"])] }).2.2 (by decide) (by decide) (by decide)
        (by decide)).1

/-- C10 counterexample: the claim as stated fails for the deny-listed tokens
that are not in the ISO code table, such as `ad` and `in` (`localeCodes`
holds neither): `Detect` on `ad.example.com` and on `in.example.com`
reports no signal at all instead of a subdomain locale. -/
theorem denylist_only_filters_path_counterexample :
    (splitStr "ad.example.com" '.').headD "" = "ad" ∧
    "ad" ∈ falsePositives ∧
    localeCodes "ad" = false ∧
    (Detect NewDetector
      { scheme := "https", host := "ad.example.com", path := "/",
        query := [] }).LocaleType ≠ LocaleType.subdomain ∧
    (Detect NewDetector
      { scheme := "https", host := "ad.example.com", path := "/",
        query := [] }).LocaleType = LocaleType.none ∧
    "in" ∈ falsePositives ∧
    localeCodes "in" = false ∧
    (Detect NewDetector
      { scheme := "https", host := "in.example.com", path := "/",
        query := [] }).LocaleType ≠ LocaleType.subdomain ∧
    (Detect NewDetector
      { scheme := "https", host := "in.example.com", path := "/",
        query := [] }).LocaleType = LocaleType.none := by
  refine ⟨by decide, by decide, by decide, by decide, by decide, by decide,
    by decide, by decide, by decide⟩

/-! ## C7 -/

/-- C7 (amended): re-running `Detect` on the BaseURL reports none for the
removed component provided the base URL itself carries no further marker of
that kind; moreover stripping a path locale never introduces a subdomain
signal, and after stripping a query locale with no remaining matching
candidate parameter the re-run reports no signal at all.  (Unamended, the
claim fails when a second marker of the same kind remains, see the
counterexample.) -/
theorem strip_idempotent_amended (u : GoURL) :
    ((Detect NewDetector u).LocaleType = LocaleType.subdomain →
      detectSubdomain NewDetector (Detect NewDetector u).BaseURL.host = "" →
      (Detect NewDetector (Detect NewDetector u).BaseURL).LocaleType
        ≠ LocaleType.subdomain) ∧
    ((Detect NewDetector u).LocaleType = LocaleType.path →
      (detectPathPrefix NewDetector (Detect NewDetector u).BaseURL.path).1 = "" →
      (Detect NewDetector (Detect NewDetector u).BaseURL).LocaleType
          ≠ LocaleType.path ∧
      (Detect NewDetector (Detect NewDetector u).BaseURL).LocaleType
          ≠ LocaleType.subdomain) ∧
    ((Detect NewDetector u).LocaleType = LocaleType.query →
      detectQueryParam NewDetector (Detect NewDetector u).BaseURL.query = "" →
      (Detect NewDetector (Detect NewDetector u).BaseURL).LocaleType
        = LocaleType.none) := by
  refine ⟨fun _ hb => detect_not_subdomain _ _ hb, fun h hb => ?_, fun h hb => ?_⟩
  · obtain ⟨c0, hpp, heq⟩ := detect_localeType_path_inv NewDetector u h
    have hhost : (Detect NewDetector u).BaseURL.host = u.host := by
      rw [heq]
      exact removePathLocale_host NewDetector u (detectPathPrefix NewDetector u.path).1
        (detectPathPrefix NewDetector u.path).2
    exact ⟨detect_not_path _ _ hb, detect_not_subdomain _ _ (by rw [hhost]; exact c0)⟩
  · obtain ⟨c0, c1, _, heq⟩ := detect_localeType_query_inv NewDetector u h
    have hhost : (Detect NewDetector u).BaseURL.host = u.host := by
      rw [heq]
      exact removeQueryLocale_host NewDetector u (detectQueryParam NewDetector u.query)
    have hpath : (Detect NewDetector u).BaseURL.path = u.path := by
      rw [heq]
      exact removeQueryLocale_path NewDetector u (detectQueryParam NewDetector u.query)
    rw [detect_none_branch NewDetector _ (by rw [hhost]; exact c0)
      (by rw [hpath]; exact c1) hb]

/-- C7 witness: after stripping `?lang=en` from a URL whose only marker it
was, re-running `Detect` on the base reports no signal. -/
theorem strip_idempotent_amended_witness :
    (Detect NewDetector
      (Detect NewDetector
        { scheme := "https", host := "example.com", path := "/page",
          query := [("lang", ["en"])] }).BaseURL).LocaleType = LocaleType.none :=
  (strip_idempotent_amended
    { scheme := "https", host := "example.com", path := "/page",
      query := [("lang", ["en"])] }).2.2 (by decide) (by decide)

/-- C7 counterexample: for `en.fr.example.com` the subdomain marker `en` is
stripped, but re-running `Detect` on the base `fr.example.com` again reports
a subdomain signal (`fr`), not none. -/
theorem strip_idempotent_counterexample :
    (Detect NewDetector
      { scheme := "https", host := "en.fr.example.com", path := "/x",
        query := [] }).LocaleType = LocaleType.subdomain ∧
    (Detect NewDetector
      (Detect NewDetector
        { scheme := "https", host := "en.fr.example.com", path := "/x",
          query := [] }).BaseURL).LocaleType = LocaleType.subdomain := by
  constructor <;> decide

theorem alLookup_valuesDel (q : List (String × List String)) (k k2 : String) :
    alLookup (valuesDel q k) k2 = if k2 = k then Option.none else alLookup q k2 := by
  induction q with
  | nil => simp [valuesDel, alLookup]
  | cons p rest ih =>
    obtain ⟨k3, v⟩ := p
    simp only [valuesDel]
    by_cases h3 : k3 = k
    · rw [if_pos h3, ih]
      by_cases h2 : k2 = k
      · rw [if_pos h2, if_pos h2]
      · rw [if_neg h2, if_neg h2, alLookup,
          if_neg (fun he : k3 = k2 => h2 (he ▸ h3))]
    · rw [if_neg h3]
      by_cases h32 : k3 = k2
      · rw [alLookup, if_pos h32, if_neg (fun he : k2 = k => h3 (h32.trans he)),
          alLookup, if_pos h32]
      · rw [alLookup, if_neg h32, ih]
        by_cases h2 : k2 = k
        · rw [if_pos h2, if_pos h2]
        · rw [if_neg h2, if_neg h2, alLookup, if_neg h32]

theorem alLookup_valuesDel_self (q : List (String × List String)) (k : String) :
    alLookup (valuesDel q k) k = Option.none := by
  rw [alLookup_valuesDel, if_pos rfl]

theorem alLookup_valuesDel_ne (q : List (String × List String)) (k k2 : String)
    (h : k2 ≠ k) :
    alLookup (valuesDel q k) k2 = alLookup q k2 := by
  rw [alLookup_valuesDel, if_neg h]

theorem valuesGet_valuesDel_ne (q : List (String × List String)) (k k2 : String)
    (h : k2 ≠ k) :
    valuesGet (valuesDel q k) k2 = valuesGet q k2 := by
  unfold valuesGet
  rw [alLookup_valuesDel_ne q k k2 h]

theorem find?_congr {α : Type} (f g : α → Bool) :
    ∀ l : List α, (∀ p ∈ l, f p = g p) → l.find? f = l.find? g := by
  intro l
  induction l with
  | nil => intro _; rfl
  | cons a rest ih =>
    intro h
    rw [List.find?, List.find?, h a (List.mem_cons_self a rest)]
    cases g a
    · exact ih (fun p hp => h p (List.mem_cons_of_mem a hp))
    · rfl

theorem detectQueryParamAux_eq_find (q : List (String × List String)) :
    ∀ cands : List String,
      detectQueryParamAux q cands =
        match cands.find? (queryMatches q) with
        | some p => lowerStr (valuesGet q p)
        | Option.none => "" := by
  intro cands
  induction cands with
  | nil => rfl
  | cons c rest ih =>
    simp only [detectQueryParamAux]
    by_cases hv : valuesGet q c = ""
    · have hq : ¬ (queryMatches q c = true) := by
        simp [queryMatches, hv]
      rw [List.find?_cons_of_neg _ hq, if_neg (fun hne => hne hv)]
      exact ih
    · by_cases hm : (localeCodes (lowerStr (valuesGet q c)) ||
          extendedLocaleRegex (lowerStr (valuesGet q c))) = true
      · have hq : queryMatches q c = true := by
          simp only [queryMatches, Bool.and_eq_true, decide_eq_true_eq, ne_eq]
          exact ⟨hv, hm⟩
        rw [List.find?_cons_of_pos _ hq, if_pos hv, if_pos hm]
      · have hq : ¬ (queryMatches q c = true) := by
          simp only [queryMatches, Bool.and_eq_true, decide_eq_true_eq, ne_eq, not_and]
          intro _
          simpa using hm
        rw [List.find?_cons_of_neg _ hq, if_pos hv, if_neg (by simpa using hm)]
        exact ih

theorem removeQueryLocale_query (d : Detector) (u : GoURL) (loc : String) :
    (removeQueryLocale d u loc).query =
      localeQueryParams.foldl
        (fun q param =>
          if lowerStr (valuesGet q param) = loc then valuesDel q param else q)
        u.query := by
  simp only [removeQueryLocale]

theorem removeFold_lookup (loc : String) :
    ∀ (cands : List String) (q : List (String × List String)) (k : String),
      cands.Nodup →
      alLookup
        (cands.foldl
          (fun q param =>
            if lowerStr (valuesGet q param) = loc then valuesDel q param else q)
          q) k =
        if k ∈ cands ∧ lowerStr (valuesGet q k) = loc then Option.none
        else alLookup q k := by
  intro cands
  induction cands with
  | nil =>
    intro q k _
    simp
  | cons c rest ih =>
    intro q k hnd
    have hndr : rest.Nodup := (List.nodup_cons.mp hnd).2
    have hcr : c ∉ rest := (List.nodup_cons.mp hnd).1
    rw [List.foldl_cons, ih _ k hndr]
    by_cases hkc : k = c
    · subst hkc
      have hkr : k ∉ rest := hcr
      rw [if_neg (fun hc => hkr hc.1)]
      by_cases hcond : lowerStr (valuesGet q k) = loc
      · rw [if_pos hcond, alLookup_valuesDel_self,
          if_pos ⟨List.mem_cons_self k rest, hcond⟩]
      · rw [if_neg hcond, if_neg ?_]
        intro hc
        exact hcond hc.2
    · have hget : valuesGet
          (if lowerStr (valuesGet q c) = loc then valuesDel q c else q) k
          = valuesGet q k := by
        by_cases hcond : lowerStr (valuesGet q c) = loc
        · rw [if_pos hcond, valuesGet_valuesDel_ne q c k hkc]
        · rw [if_neg hcond]
      have hlook : alLookup
          (if lowerStr (valuesGet q c) = loc then valuesDel q c else q) k
          = alLookup q k := by
        by_cases hcond : lowerStr (valuesGet q c) = loc
        · rw [if_pos hcond, alLookup_valuesDel_ne q c k hkc]
        · rw [if_neg hcond]
      rw [hget, hlook]
      by_cases hmem : k ∈ rest ∧ lowerStr (valuesGet q k) = loc
      · rw [if_pos hmem, if_pos ⟨List.mem_cons_of_mem c hmem.1, hmem.2⟩]
      · rw [if_neg hmem, if_neg ?_]
        intro hc
        rcases List.mem_cons.mp hc.1 with h1 | h1
        · exact hkc h1
        · exact hmem ⟨h1, hc.2⟩

/-! ## C5 -/

/-- C5: `detectQueryParam` scans the candidate names `lang, locale, language,
hl, l` in order and the first whose (non-empty, lowercased) value matches the
code table or extended pattern wins; names are matched exactly (only the
lowercase keys are consulted, so the detection result depends only on the
values stored under those five exact keys); and on a query signal the base
URL keeps host and path and drops every candidate parameter whose lowercased
value equals the winning code, keeping everything else. -/
theorem query_param_detection :
    (∀ q, detectQueryParam NewDetector q =
      (match localeQueryParams.find? (queryMatches q) with
       | some p => lowerStr (valuesGet q p)
       | Option.none => "")) ∧
    (∀ q1 q2, (∀ p ∈ localeQueryParams, valuesGet q1 p = valuesGet q2 p) →
      detectQueryParam NewDetector q1 = detectQueryParam NewDetector q2) ∧
    (∀ u : GoURL, (Detect NewDetector u).LocaleType = LocaleType.query →
      (Detect NewDetector u).Locale = detectQueryParam NewDetector u.query ∧
      (Detect NewDetector u).BaseURL.host = u.host ∧
      (Detect NewDetector u).BaseURL.path = u.path ∧
      ∀ k : String,
        alLookup (Detect NewDetector u).BaseURL.query k =
          if k ∈ localeQueryParams ∧
              lowerStr (valuesGet u.query k) = (Detect NewDetector u).Locale
          then Option.none else alLookup u.query k) := by
  have hfind : ∀ q, detectQueryParam NewDetector q =
      (match localeQueryParams.find? (queryMatches q) with
       | some p => lowerStr (valuesGet q p)
       | Option.none => "") := by
    intro q
    exact detectQueryParamAux_eq_find q localeQueryParams
  refine ⟨hfind, fun q1 q2 h => ?_, fun u h => ?_⟩
  · rw [hfind q1, hfind q2]
    have hqm : ∀ p ∈ localeQueryParams, queryMatches q1 p = queryMatches q2 p := by
      intro p hp
      unfold queryMatches
      rw [h p hp]
    rw [find?_congr _ _ localeQueryParams hqm]
    cases hf : localeQueryParams.find? (queryMatches q2) with
    | none => rfl
    | some p =>
      have hp : p ∈ localeQueryParams := List.mem_of_find?_eq_some hf
      simp only [h p hp]
  · obtain ⟨c0, c1, hne, heq⟩ := detect_localeType_query_inv NewDetector u h
    refine ⟨by rw [heq], ?_, ?_, ?_⟩
    · rw [heq]
      exact removeQueryLocale_host NewDetector u (detectQueryParam NewDetector u.query)
    · rw [heq]
      exact removeQueryLocale_path NewDetector u (detectQueryParam NewDetector u.query)
    · intro k
      have hbq : (Detect NewDetector u).BaseURL.query =
          localeQueryParams.foldl
            (fun q param =>
              if lowerStr (valuesGet q param) = detectQueryParam NewDetector u.query
              then valuesDel q param else q)
            u.query := by
        rw [heq]
        exact removeQueryLocale_query NewDetector u (detectQueryParam NewDetector u.query)
      have hloc : (Detect NewDetector u).Locale = detectQueryParam NewDetector u.query := by
        rw [heq]
      rw [hbq, hloc]
      exact removeFold_lookup (detectQueryParam NewDetector u.query)
        localeQueryParams u.query k (by decide)

/-- C5 witness: with `?lang=xx&hl=EN&x=1` the parameter `lang` does not match,
`hl` wins with locale `en`, `hl` is removed from the base URL and the
unrelated parameter `x` survives. -/
theorem query_param_detection_witness :
    alLookup (Detect NewDetector
      { scheme := "https", host := "example.com", path := "/p",
        query := [("lang", ["xx"]), ("hl", ["EN"]), ("x", ["1"])] }).BaseURL.query
      "hl" = Option.none ∧
    alLookup (Detect NewDetector
      { scheme := "https", host := "example.com", path := "/p",
        query := [("lang", ["xx"]), ("hl", ["EN"]), ("x", ["1"])] }).BaseURL.query
      "x" = some ["1"] := by
  constructor
  · have h := ((query_param_detection).2.2
      { scheme := "https", host := "example.com", path := "/p",
        query := [("lang", ["xx"]), ("hl", ["EN"]), ("x", ["1"])] }
      (by decide)).2.2.2 "hl"
    rw [h]
    decide
  · have h := ((query_param_detection).2.2
      { scheme := "https", host := "example.com", path := "/p",
        query := [("lang", ["xx"]), ("hl", ["EN"]), ("x", ["1"])] }
      (by decide)).2.2.2 "x"
    rw [h]
    decide

theorem alLookup_alSet {α : Type} (m : List (String × α)) (k : String) (v : α)
    (k2 : String) :
    alLookup (alSet m k v) k2 = if k2 = k then some v else alLookup m k2 := by
  induction m with
  | nil =>
    simp only [alSet, alLookup]
    by_cases h2 : k2 = k
    · rw [if_pos (h2 ▸ rfl), if_pos h2]
    · rw [if_neg (fun he : k = k2 => h2 he.symm), if_neg h2]
  | cons p rest ih =>
    obtain ⟨k3, v3⟩ := p
    simp only [alSet]
    by_cases h3 : k3 = k
    · rw [if_pos h3, alLookup]
      by_cases h2 : k2 = k
      · rw [if_pos (h2 ▸ rfl), if_pos h2]
      · rw [if_neg (fun he : k = k2 => h2 he.symm), if_neg h2, alLookup,
          if_neg (fun he : k3 = k2 => h2 (he ▸ h3 ▸ rfl))]
    · rw [if_neg h3, alLookup]
      by_cases h32 : k3 = k2
      · rw [if_pos h32, if_neg (fun he : k2 = k => h3 (h32.trans he)), alLookup,
          if_pos h32]
      · rw [if_neg h32, ih]
        by_cases h2 : k2 = k
        · rw [if_pos h2, if_pos h2]
        · rw [if_neg h2, if_neg h2, alLookup, if_neg h32]

theorem alLookup_foldl_alSet (f : Nat → Int) :
    ∀ (l : List (Nat × String)) (m0 : List (String × Int)) (loc : String),
      (l.map Prod.snd).Nodup →
      alLookup (l.foldl (fun m p => alSet m p.2 (f p.1)) m0) loc =
        (match l.find? (fun p => p.2 = loc) with
         | some p => some (f p.1)
         | Option.none => alLookup m0 loc) := by
  intro l
  induction l with
  | nil =>
    intro m0 loc _
    rfl
  | cons p rest ih =>
    intro m0 loc hnd
    obtain ⟨i, s⟩ := p
    simp only [List.map_cons, List.nodup_cons] at hnd
    rw [List.foldl_cons, ih _ loc hnd.2]
    by_cases hsl : s = loc
    · subst hsl
      rw [List.find?_cons_of_pos _ (by simp)]
      have hrest : rest.find? (fun p => decide (p.2 = s)) = Option.none := by
        rw [List.find?_eq_none]
        intro x hx
        simp only [decide_eq_true_eq]
        intro he
        exact hnd.1 (he ▸ List.mem_map_of_mem Prod.snd hx)
      rw [hrest, alLookup_alSet, if_pos rfl]
    · rw [List.find?_cons_of_neg _ (by simpa using hsl)]
      cases hf : rest.find? (fun p => decide (p.2 = loc)) with
      | none => rw [alLookup_alSet, if_neg (fun he => hsl he.symm)]
      | some pf => rfl

theorem enumFrom_find?_first (loc : String) :
    ∀ (l : List String) (n i : Nat), i < l.length → l.getD i "" = loc →
      (∀ j, j < i → l.getD j "" ≠ loc) →
      (List.enumFrom n l).find? (fun p => p.2 = loc) = some (n + i, loc) := by
  intro l
  induction l with
  | nil =>
    intro n i hi
    simp at hi
  | cons a rest ih =>
    intro n i hi hget hfirst
    cases i with
    | zero =>
      simp only [List.getD_cons_zero] at hget
      rw [List.enumFrom, List.find?_cons_of_pos _ (by simpa using hget)]
      rw [hget, Nat.add_zero]
    | succ i0 =>
      have ha : a ≠ loc := by
        have := hfirst 0 (Nat.succ_pos i0)
        simpa using this
      rw [List.enumFrom, List.find?_cons_of_neg _ (by simpa using ha)]
      have harith : n + (i0 + 1) = (n + 1) + i0 := by omega
      rw [harith]
      exact ih (n + 1) i0 (by simpa using hi) (by simpa using hget)
        (fun j hj => by
          have := hfirst (j + 1) (Nat.succ_lt_succ hj)
          simpa using this)

theorem getD_mem_of_lt {α : Type} (l : List α) (d : α) :
    ∀ i, i < l.length → l.getD i d ∈ l := by
  induction l with
  | nil =>
    intro i h
    simp at h
  | cons a rest ih =>
    intro i h
    cases i with
    | zero => simp
    | succ i0 =>
      simp only [List.getD_cons_succ]
      exact List.mem_cons_of_mem a (ih i0 (by simpa using h))

theorem mem_of_mem_enum (l : List String) (x : Nat × String)
    (hx : x ∈ l.enum) : x.2 ∈ l := by
  have hx2 : x.2 ∈ l.enum.map Prod.snd := List.mem_map_of_mem Prod.snd hx
  rwa [List.enum_map_snd] at hx2

theorem newScorer_localePriority (priorities : List String) :
    (NewScorer priorities).localePriority =
      priorities.enum.foldl
        (fun m p => alSet m p.2 (100 + ((priorities.length : Int) - (p.1 : Int)) * 10))
        [("default", 50)] := by
  simp only [NewScorer]

theorem enum_map_snd_eq (l : List String) : l.enum.map Prod.snd = l :=
  List.enum_map_snd l

theorem calculateCompleteness_eq (s : Scorer) (u : GoURL) :
    calculateCompleteness s u =
      (let qc : Int := ((u.query.map Prod.fst).dedup.length : Int) * 2
       let segs := splitStr (trimSlashes u.path) '/'
       let base : Int := if segs.headD "" ≠ "" then qc + (segs.length : Int) else qc
       if base > 20 then 20 else base) := by
  have hlen : 0 < (splitStr (trimSlashes u.path) '/').length :=
    List.length_pos.mpr (splitStr_ne_nil _ _)
  simp only [calculateCompleteness]
  by_cases hh : (splitStr (trimSlashes u.path) '/').headD "" = ""
  · simp [hh, hlen]
  · simp [hh, hlen]

/-! ## C8 -/

/-- C8 (amended): for a duplicate-free priority list not containing
`"default"` or `""`, the total score is the sum of three components: a
priority component of `100 + (N − i) * 10` for the locale first listed at
index i of the N codes, 50 for the pseudo-locale `"default"` (including the
empty locale), 25 for a detected but unlisted code; a completeness component
of 2 points per distinct query-parameter name plus, when the first segment of
the trimmed path is non-empty, 1 point per segment of the trimmed path
(consecutive slashes contribute empty segments that are still counted — the
code checks only the first segment for emptiness), capped at 20; and a
first-seen bonus of 10. -/
theorem scorer_score_formula (priorities : List String) (hnd : priorities.Nodup)
    (hdef : "default" ∉ priorities) (hemp : "" ∉ priorities)
    (tok : LocalizedURL) (first : Bool) :
    ((tok.Locale = "" ∨ tok.Locale = "default") →
      (Scorer.Score (NewScorer priorities) tok first).LocaleScore = 50) ∧
    (∀ i : Nat, i < priorities.length → priorities.getD i "" = tok.Locale →
      (∀ j, j < i → priorities.getD j "" ≠ tok.Locale) →
      (Scorer.Score (NewScorer priorities) tok first).LocaleScore
        = 100 + ((priorities.length : Int) - (i : Int)) * 10) ∧
    (tok.Locale ≠ "" → tok.Locale ≠ "default" → tok.Locale ∉ priorities →
      (Scorer.Score (NewScorer priorities) tok first).LocaleScore = 25) ∧
    ((Scorer.Score (NewScorer priorities) tok first).CompletenessScore =
      (let qc : Int := ((tok.OriginalURL.query.map Prod.fst).dedup.length : Int) * 2
       let segs := splitStr (trimSlashes tok.OriginalURL.path) '/'
       let base : Int := if segs.headD "" ≠ "" then qc + (segs.length : Int) else qc
       if base > 20 then 20 else base)) ∧
    ((Scorer.Score (NewScorer priorities) tok first).FirstSeenBonus
      = (if first then (10 : Int) else 0)) ∧
    ((Scorer.Score (NewScorer priorities) tok first).TotalScore
      = (Scorer.Score (NewScorer priorities) tok first).LocaleScore
        + (Scorer.Score (NewScorer priorities) tok first).CompletenessScore
        + (Scorer.Score (NewScorer priorities) tok first).FirstSeenBonus) := by
  have hnde : (priorities.enum.map Prod.snd).Nodup := by
    rw [enum_map_snd_eq]; exact hnd
  refine ⟨fun hl => ?_, fun i hi hget hfirst => ?_, fun h1 h2 h3 => ?_, ?_, ?_, ?_⟩
  · have hloc : (if tok.Locale = "" then "default" else tok.Locale) = "default" := by
      rcases hl with hl | hl
      · rw [if_pos hl]
      · rw [hl]; simp
    simp only [Scorer.Score, hloc, newScorer_localePriority]
    rw [alLookup_foldl_alSet
      (fun i => 100 + ((priorities.length : Int) - (i : Int)) * 10)
      priorities.enum _ "default" hnde]
    have hf : priorities.enum.find? (fun p => decide (p.2 = "default"))
        = Option.none := by
      rw [List.find?_eq_none]
      intro x hx
      simp only [decide_eq_true_eq]
      intro he
      exact hdef (he ▸ mem_of_mem_enum priorities x hx)
    rw [hf]
    rfl
  · have hmem : tok.Locale ∈ priorities := by
      rw [← hget]
      exact getD_mem_of_lt priorities "" i hi
    have hne : tok.Locale ≠ "" := fun he => hemp (he ▸ hmem)
    have hloc : (if tok.Locale = "" then "default" else tok.Locale) = tok.Locale :=
      if_neg hne
    simp only [Scorer.Score, hloc, newScorer_localePriority]
    rw [alLookup_foldl_alSet
      (fun i => 100 + ((priorities.length : Int) - (i : Int)) * 10)
      priorities.enum _ tok.Locale hnde]
    have hf := enumFrom_find?_first tok.Locale priorities 0 i hi hget hfirst
    rw [List.enum, hf]
    simp
  · have hloc : (if tok.Locale = "" then "default" else tok.Locale) = tok.Locale :=
      if_neg h1
    simp only [Scorer.Score, hloc, newScorer_localePriority]
    rw [alLookup_foldl_alSet
      (fun i => 100 + ((priorities.length : Int) - (i : Int)) * 10)
      priorities.enum _ tok.Locale hnde]
    have hf : priorities.enum.find? (fun p => decide (p.2 = tok.Locale))
        = Option.none := by
      rw [List.find?_eq_none]
      intro x hx
      simp only [decide_eq_true_eq]
      intro he
      exact h3 (he ▸ mem_of_mem_enum priorities x hx)
    rw [hf]
    simp only [alLookup]
    rw [if_neg (fun he : "default" = tok.Locale => h2 he.symm)]
  · simp only [Scorer.Score]
    exact calculateCompleteness_eq (NewScorer priorities) tok.OriginalURL
  · simp only [Scorer.Score]
  · simp only [Scorer.Score]

/-- C8 witness: with priorities `[en, es]`, the token `exTok1` (locale `es`,
index 1 of 2) has priority component `100 + (2 − 1) * 10 = 110`. -/
theorem scorer_score_formula_witness :
    (Scorer.Score (NewScorer ["en", "es"]) exTok1 true).LocaleScore = 110 := by
  have h := (scorer_score_formula ["en", "es"] (by decide) (by decide) (by decide)
    exTok1 true).2.1 1 (by decide) (by decide)
    (by
      intro j hj
      have hj0 : j = 0 := by omega
      subst hj0
      decide)
  rw [h]
  decide

/-- C8 counterexample: the claim as stated awards 1 point per NON-EMPTY path
segment, but for `/a//b` (an empty middle segment, token `exTok2`) the code
counts all 3 segments of the trimmed path: the completeness component is 3,
not 2, and the total score is 53, not `50 + 2 + 0`. -/
theorem scorer_score_formula_counterexample :
    (Scorer.Score (NewScorer ["en"]) exTok2 false).CompletenessScore = 3 ∧
    ((splitStr (trimSlashes "/a//b") '/').filter (fun s => s ≠ "")).length = 2 ∧
    (Scorer.Score (NewScorer ["en"]) exTok2 false).TotalScore ≠ 50 + 2 + 0 := by
  refine ⟨by decide, by decide, by decide⟩

/-! ## C9 -/

/-- C9 (amended): `NewGrouper` defaults an empty priority list to `["en"]`
(the grouper built from `[]` is identical to the one built from `["en"]`);
`NewScorer` applies no such defaulting, so with an empty list no listed-code
entry exists and every detected code scores 25 (see the counterexample). -/
theorem grouper_empty_priority_defaults :
    NewGrouper [] = NewGrouper ["en"] ∧ (NewGrouper []).Priority = ["en"] :=
  ⟨rfl, rfl⟩

/-- C9 counterexample: `NewScorer []` does not behave like `NewScorer ["en"]`:
the token `exTok3` (detected locale `en`) scores 25 with the empty list but
110 with `["en"]`. -/
theorem scorer_empty_priority_counterexample :
    (Scorer.Score (NewScorer []) exTok3 false).LocaleScore = 25 ∧
    (Scorer.Score (NewScorer ["en"]) exTok3 false).LocaleScore = 110 := by
  refine ⟨by decide, by decide⟩

/-! ## C4 -/

/-- C4: `ShouldGroup` returns false when the two independently computed group
keys differ; with equal keys it returns true exactly when the two base URLs
have the same (`www.`-stripped then lowercased) host, the same number of path
segments, and at least 70% (`10 * matches ≥ 7 * segments`) of the
position-aligned segment pairs are identical or translation pairs. -/
theorem shouldGroup_iff (g : Grouper) (u1 u2 : GoURL) :
    (generateGroupKey g (Detect g.detector u1)
        ≠ generateGroupKey g (Detect g.detector u2) →
      ShouldGroup g u1 u2 = false) ∧
    (generateGroupKey g (Detect g.detector u1)
        = generateGroupKey g (Detect g.detector u2) →
      (ShouldGroup g u1 u2 = true ↔
        (lowerStr (trimPrefixStr (Detect g.detector u1).BaseURL.host "www.")
            = lowerStr (trimPrefixStr (Detect g.detector u2).BaseURL.host "www.") ∧
          (splitStr (trimSlashes (Detect g.detector u1).BaseURL.path) '/').length
            = (splitStr (trimSlashes (Detect g.detector u2).BaseURL.path) '/').length ∧
          10 * (((splitStr (trimSlashes (Detect g.detector u1).BaseURL.path) '/').zip
                  (splitStr (trimSlashes (Detect g.detector u2).BaseURL.path) '/')).countP
                  (fun p => p.1 == p.2 || AreTranslations g.translationMatcher p.1 p.2))
            ≥ 7 * (splitStr (trimSlashes (Detect g.detector u1).BaseURL.path) '/').length))) := by
  constructor
  · intro hne
    simp only [ShouldGroup]
    rw [if_neg hne]
  · intro heq
    simp only [ShouldGroup]
    rw [if_pos heq]
    simp only [validateSimilarity]
    by_cases hhost : lowerStr (trimPrefixStr (Detect g.detector u1).BaseURL.host "www.")
        = lowerStr (trimPrefixStr (Detect g.detector u2).BaseURL.host "www.")
    · rw [if_neg (fun hc => hc hhost)]
      by_cases hlen : (splitStr (trimSlashes (Detect g.detector u1).BaseURL.path) '/').length
          = (splitStr (trimSlashes (Detect g.detector u2).BaseURL.path) '/').length
      · rw [if_neg (fun hc => hc hlen)]
        simp only [decide_eq_true_eq]
        constructor
        · intro hm
          exact ⟨hhost, hlen, hm⟩
        · intro hm
          exact hm.2.2
      · rw [if_pos hlen]
        constructor
        · intro hf
          exact absurd hf (by simp)
        · intro hm
          exact absurd hm.2.1 hlen
    · rw [if_pos hhost]
      constructor
      · intro hf
        exact absurd hf (by simp)
      · intro hm
        exact absurd hm.1 hhost

set_option maxRecDepth 8000 in
/-- C4 witness: `/en/about` and `/es/sobre-nosotros` share a group key and
pass the 70% identical-or-translation validation, so `ShouldGroup` is true. -/
theorem shouldGroup_iff_witness :
    ShouldGroup (NewGrouper ["en"])
      { scheme := "https", host := "example.com", path := "/en/about", query := [] }
      { scheme := "https", host := "example.com", path := "/es/sobre-nosotros",
        query := [] } = true :=
  ((shouldGroup_iff (NewGrouper ["en"])
    { scheme := "https", host := "example.com", path := "/en/about", query := [] }
    { scheme := "https", host := "example.com", path := "/es/sobre-nosotros",
      query := [] }).2 (by decide)).mpr ⟨by decide, by decide, by decide⟩

/-! ## Grouper state lemmas (for C3 and C6) -/

theorem alSet_self {α : Type} (l : List (String × α)) (k : String) (v : α)
    (h : alLookup l k = some v) : alSet l k v = l := by
  induction l with
  | nil => simp [alLookup] at h
  | cons p rest ih =>
    obtain ⟨k2, v2⟩ := p
    simp only [alLookup] at h
    simp only [alSet]
    by_cases h2 : k2 = k
    · rw [if_pos h2] at h ⊢
      injection h with h
      rw [h, h2]
    · rw [if_neg h2] at h ⊢
      rw [ih h]

theorem alLookup_append {α : Type} (l1 l2 : List (String × α)) (k : String) :
    alLookup (l1 ++ l2) k =
      (match alLookup l1 k with
       | some v => some v
       | Option.none => alLookup l2 k) := by
  induction l1 with
  | nil => rfl
  | cons p rest ih =>
    obtain ⟨k2, v2⟩ := p
    simp only [List.cons_append, alLookup]
    by_cases h2 : k2 = k
    · rw [if_pos h2, if_pos h2]
    · rw [if_neg h2, if_neg h2]
      exact ih

theorem findSome?_eq_find?_bind {α β : Type} (f : α → Option β) :
    ∀ l : List α, l.findSome? f = (l.find? (fun x => (f x).isSome)).bind f := by
  intro l
  induction l with
  | nil => rfl
  | cons a rest ih =>
    rw [List.findSome?_cons]
    cases hfa : f a with
    | some b =>
      rw [List.find?_cons_of_pos _ (by simp [hfa])]
      simp [hfa]
    | none =>
      rw [List.find?_cons_of_neg _ (by simp [hfa])]
      exact ih

theorem updateBestURL_URLs (g : Grouper) (gr : LocaleGroup) :
    (updateBestURL g gr).URLs = gr.URLs := by
  unfold updateBestURL
  split
  · rfl
  · split
    · rfl
    · split
      · rfl
      · rfl

theorem updateBestURL_eq (g : Grouper) (gr : LocaleGroup) (hne : gr.URLs ≠ []) :
    updateBestURL g gr = { gr with BestURL := bestOf g.Priority gr.URLs } := by
  unfold updateBestURL bestOf
  cases h1 : g.Priority.findSome? (fun priorityLocale => alLookup gr.URLs priorityLocale) with
  | some u2 => rfl
  | none =>
    cases h2 : alLookup gr.URLs "default" with
    | some u2 => rfl
    | none =>
      cases hu : gr.URLs with
      | nil => exact absurd hu hne
      | cons p rest =>
        obtain ⟨l, u2⟩ := p
        rfl

theorem add_eq (g : Grouper) (u : GoURL) :
    Grouper.Add g u =
      { g with groups := alSet g.groups (addKey g u) (updateBestURL g (addGroup2 g u)) } := by
  simp only [Grouper.Add, addGroup2, addKey, addLoc]

theorem add_detector (g : Grouper) (u : GoURL) :
    (Grouper.Add g u).detector = g.detector := by
  rw [add_eq]

theorem add_matcher (g : Grouper) (u : GoURL) :
    (Grouper.Add g u).translationMatcher = g.translationMatcher := by
  rw [add_eq]

theorem add_priority_eq (g : Grouper) (u : GoURL) :
    (Grouper.Add g u).Priority = g.Priority := by
  rw [add_eq]

theorem add_groups (g : Grouper) (u : GoURL) :
    (Grouper.Add g u).groups =
      alSet g.groups (addKey g u) (updateBestURL g (addGroup2 g u)) := by
  rw [add_eq]

theorem addGroup2_URLs_ne_nil (g : Grouper) (u : GoURL) :
    (addGroup2 g u).URLs ≠ [] := by
  unfold addGroup2
  simp only []
  cases hm : alLookup g.groups (addKey g u) with
  | some gr =>
    simp only [hm]
    by_cases hloc : (alLookup gr.URLs (addLoc g u)).isSome = true
    · rw [if_pos hloc]
      intro hnil
      rw [hnil] at hloc
      simp [alLookup] at hloc
    · rw [if_neg hloc]
      simp
  | none =>
    simp only [hm]
    simp [alLookup]

theorem generateGroupKey_congr (g h : Grouper) (localized : LocalizedURL)
    (hm : g.translationMatcher = h.translationMatcher) :
    generateGroupKey g localized = generateGroupKey h localized := by
  simp only [generateGroupKey, normalizePath, hm]

theorem addKey_congr (g h : Grouper) (u : GoURL)
    (hd : g.detector = h.detector) (hm : g.translationMatcher = h.translationMatcher) :
    addKey g u = addKey h u := by
  unfold addKey
  rw [hd]
  exact generateGroupKey_congr g h _ hm

theorem addLoc_congr (g h : Grouper) (u : GoURL) (hd : g.detector = h.detector) :
    addLoc g u = addLoc h u := by
  unfold addLoc
  rw [hd]

theorem newGrouper_groups (prio : List String) : (NewGrouper prio).groups = [] := by
  simp only [NewGrouper]

theorem newGrouper_inv (prio : List String) : GrouperInv (NewGrouper prio) := by
  intro k gr h
  rw [newGrouper_groups] at h
  simp [alLookup] at h

theorem add_preserves_inv (g : Grouper) (u : GoURL) (hinv : GrouperInv g) :
    GrouperInv (Grouper.Add g u) := by
  intro k gr hlook
  rw [add_groups, alLookup_alSet] at hlook
  rw [add_priority_eq]
  by_cases hk : k = addKey g u
  · rw [if_pos hk] at hlook
    injection hlook with hlook
    subst hlook
    have hne := addGroup2_URLs_ne_nil g u
    constructor
    · rw [updateBestURL_URLs]
      exact hne
    · rw [updateBestURL_eq g _ hne]
  · rw [if_neg hk] at hlook
    exact hinv k gr hlook

theorem foldl_add_inv (adds : List GoURL) :
    ∀ g : Grouper, GrouperInv g → GrouperInv (List.foldl Grouper.Add g adds) := by
  induction adds with
  | nil => intro g h; exact h
  | cons a rest ih =>
    intro g h
    exact ih _ (add_preserves_inv g a h)

theorem foldl_priority (adds : List GoURL) :
    ∀ g : Grouper, (List.foldl Grouper.Add g adds).Priority = g.Priority := by
  induction adds with
  | nil => intro g; rfl
  | cons a rest ih =>
    intro g
    rw [List.foldl_cons, ih, add_priority_eq]

theorem foldl_detector (adds : List GoURL) :
    ∀ g : Grouper, (List.foldl Grouper.Add g adds).detector = g.detector := by
  induction adds with
  | nil => intro g; rfl
  | cons a rest ih =>
    intro g
    rw [List.foldl_cons, ih, add_detector]

theorem foldl_matcher (adds : List GoURL) :
    ∀ g : Grouper,
      (List.foldl Grouper.Add g adds).translationMatcher = g.translationMatcher := by
  induction adds with
  | nil => intro g; rfl
  | cons a rest ih =>
    intro g
    rw [List.foldl_cons, ih, add_matcher]

/-! ## C3 -/

/-- C3: after every sequence of `Add` calls, every stored group's best URL is
the entry of the earliest priority-list locale present in its locale map,
else the `"default"` entry if present, else some present entry. -/
theorem add_best_url_invariant (prio : List String) (adds : List GoURL)
    (k : String) (gr : LocaleGroup)
    (h : alLookup (List.foldl Grouper.Add (NewGrouper prio) adds).groups k
      = some gr) :
    (∀ pl, (NewGrouper prio).Priority.find?
        (fun x => (alLookup gr.URLs x).isSome) = some pl →
      gr.BestURL = alLookup gr.URLs pl) ∧
    ((NewGrouper prio).Priority.find? (fun x => (alLookup gr.URLs x).isSome)
        = Option.none →
      ∀ u2, alLookup gr.URLs "default" = some u2 → gr.BestURL = some u2) ∧
    ((NewGrouper prio).Priority.find? (fun x => (alLookup gr.URLs x).isSome)
        = Option.none →
      alLookup gr.URLs "default" = Option.none →
      ∃ l u2, (l, u2) ∈ gr.URLs ∧ gr.BestURL = some u2) := by
  obtain ⟨hne, hbest⟩ :=
    foldl_add_inv adds (NewGrouper prio) (newGrouper_inv prio) k gr h
  rw [foldl_priority] at hbest
  refine ⟨fun pl hpl => ?_, fun hnone u2 hdef => ?_, fun hnone hdef => ?_⟩
  · rw [hbest]
    unfold bestOf
    rw [findSome?_eq_find?_bind]
    rw [hpl]
    have hsome : (alLookup gr.URLs pl).isSome = true := by
      have := List.find?_some hpl
      simpa using this
    cases hlk : alLookup gr.URLs pl with
    | some u2 => simp [hlk]
    | none =>
      rw [hlk] at hsome
      simp at hsome
  · rw [hbest]
    unfold bestOf
    rw [findSome?_eq_find?_bind]
    rw [hnone]
    simp only [Option.none_bind]
    rw [hdef]
  · rw [hbest]
    unfold bestOf
    rw [findSome?_eq_find?_bind]
    rw [hnone]
    simp only [Option.none_bind]
    rw [hdef]
    cases hu : gr.URLs with
    | nil => exact absurd hu hne
    | cons p rest =>
      obtain ⟨l, u2⟩ := p
      refine ⟨l, u2, ?_, rfl⟩
      exact List.mem_cons_self _ _

set_option maxRecDepth 4000 in
/-- C3 witness: after adding `en.example.com/` to a fresh grouper with
priority `["en"]`, the stored group's best URL is its `"en"` entry. -/
theorem add_best_url_invariant_witness :
    c3Group.BestURL = alLookup c3Group.URLs "en" :=
  (add_best_url_invariant ["en"] c3Adds c3Key c3Group (by decide)).1 "en" (by decide)

/-! ## Presence and idempotence (C6) -/

theorem updateBestURLAt_zero (g : Grouper) (gr : LocaleGroup) :
    updateBestURLAt 0 g gr = updateBestURL g gr := by
  unfold updateBestURLAt updateBestURL
  cases h1 : g.Priority.findSome? (fun priorityLocale => alLookup gr.URLs priorityLocale) with
  | some u2 => rfl
  | none =>
    cases h2 : alLookup gr.URLs "default" with
    | some u2 => rfl
    | none =>
      cases hu : gr.URLs with
      | nil => rfl
      | cons p rest =>
        obtain ⟨l, u2⟩ := p
        rfl

theorem updateBestURLAt_URLs (k : Nat) (g : Grouper) (gr : LocaleGroup) :
    (updateBestURLAt k g gr).URLs = gr.URLs := by
  unfold updateBestURLAt
  split
  · rfl
  · split
    · rfl
    · split
      · rfl
      · rfl

theorem updateBestURLAt_determined (k : Nat) (g : Grouper) (gr : LocaleGroup)
    (hdet : (g.Priority.findSome? (fun pl => alLookup gr.URLs pl)).isSome = true ∨
      (alLookup gr.URLs "default").isSome = true) :
    (updateBestURLAt k g gr).BestURL = bestOf g.Priority gr.URLs := by
  unfold updateBestURLAt bestOf
  cases h1 : g.Priority.findSome? (fun priorityLocale => alLookup gr.URLs priorityLocale) with
  | some u2 => rfl
  | none =>
    cases h2 : alLookup gr.URLs "default" with
    | some u2 => rfl
    | none =>
      exfalso
      rcases hdet with hd | hd
      · rw [h1] at hd
        simp at hd
      · rw [h2] at hd
        simp at hd

theorem alLookup_mem {α : Type} (l : List (String × α)) (k : String) (v : α)
    (h : alLookup l k = some v) : (k, v) ∈ l := by
  induction l with
  | nil => simp [alLookup] at h
  | cons p rest ih =>
    obtain ⟨k2, v2⟩ := p
    simp only [alLookup] at h
    by_cases h2 : k2 = k
    · rw [if_pos h2] at h
      injection h with h
      subst h
      subst h2
      exact List.mem_cons_self _ _
    · rw [if_neg h2] at h
      exact List.mem_cons_of_mem _ (ih h)

theorem updateBestURLAt_mem (k : Nat) (g : Grouper) (gr : LocaleGroup)
    (hne : gr.URLs ≠ []) :
    ∃ l u2, (l, u2) ∈ gr.URLs ∧ (updateBestURLAt k g gr).BestURL = some u2 := by
  unfold updateBestURLAt
  cases h1 : g.Priority.findSome? (fun priorityLocale => alLookup gr.URLs priorityLocale) with
  | some u2 =>
    rw [findSome?_eq_find?_bind] at h1
    cases hf : g.Priority.find? (fun x => (alLookup gr.URLs x).isSome) with
    | none =>
      rw [hf] at h1
      simp at h1
    | some pl =>
      rw [hf] at h1
      simp only [Option.some_bind] at h1
      exact ⟨pl, u2, alLookup_mem _ _ _ h1, rfl⟩
  | none =>
    cases h2 : alLookup gr.URLs "default" with
    | some u2 => exact ⟨"default", u2, alLookup_mem _ _ _ h2, rfl⟩
    | none =>
      cases hu : gr.URLs with
      | nil => exact absurd hu hne
      | cons p rest =>
        refine ⟨((p :: rest).getD (k % (p :: rest).length) p).1,
          ((p :: rest).getD (k % (p :: rest).length) p).2, ?_, rfl⟩
        have hmem := getD_mem_of_lt (p :: rest) p (k % (p :: rest).length)
          (Nat.mod_lt _ (by simp))
        simpa using hmem

theorem addAt_eq (k : Nat) (g : Grouper) (u : GoURL) :
    Grouper.AddAt k g u =
      { g with groups := alSet g.groups (addKey g u) (updateBestURLAt k g (addGroup2 g u)) } := by
  simp only [Grouper.AddAt, addGroup2, addKey, addLoc]

theorem addAt_zero (g : Grouper) (u : GoURL) :
    Grouper.AddAt 0 g u = Grouper.Add g u := by
  rw [addAt_eq, add_eq, updateBestURLAt_zero]

theorem addAt_detector (k : Nat) (g : Grouper) (u : GoURL) :
    (Grouper.AddAt k g u).detector = g.detector := by
  rw [addAt_eq]

theorem addAt_matcher (k : Nat) (g : Grouper) (u : GoURL) :
    (Grouper.AddAt k g u).translationMatcher = g.translationMatcher := by
  rw [addAt_eq]

theorem addAt_priority_eq (k : Nat) (g : Grouper) (u : GoURL) :
    (Grouper.AddAt k g u).Priority = g.Priority := by
  rw [addAt_eq]

theorem addAt_groups (k : Nat) (g : Grouper) (u : GoURL) :
    (Grouper.AddAt k g u).groups =
      alSet g.groups (addKey g u) (updateBestURLAt k g (addGroup2 g u)) := by
  rw [addAt_eq]

theorem alSet_length {α : Type} (l : List (String × α)) (k : String) (v : α)
    (h : (alLookup l k).isSome = true) : (alSet l k v).length = l.length := by
  induction l with
  | nil => simp [alLookup] at h
  | cons p rest ih =>
    obtain ⟨k2, v2⟩ := p
    simp only [alLookup] at h
    simp only [alSet]
    by_cases h2 : k2 = k
    · rw [if_pos h2]
      simp
    · rw [if_neg h2] at h ⊢
      simp [ih h]

theorem findSome?_isSome_iff (urls : List (String × LocalizedURL)) (P : List String) :
    (P.findSome? (fun pl => alLookup urls pl)).isSome = true ↔
      (P.find? (fun x => (alLookup urls x).isSome)).isSome = true := by
  rw [findSome?_eq_find?_bind]
  cases hf : P.find? (fun x => (alLookup urls x).isSome) with
  | none => simp
  | some pl =>
    have hpl := List.find?_some hf
    simp only [Option.some_bind, Option.isSome_some, iff_true]
    simpa using hpl

theorem addAt_preserves_present (k : Nat) (g : Grouper) (u v : GoURL)
    (hp : presentIn g v) : presentIn (Grouper.AddAt k g u) v := by
  obtain ⟨gr, hgr, hloc⟩ := hp
  have hkey : addKey (Grouper.AddAt k g u) v = addKey g v :=
    addKey_congr _ _ _ (addAt_detector k g u) (addAt_matcher k g u)
  have hlocv : addLoc (Grouper.AddAt k g u) v = addLoc g v :=
    addLoc_congr _ _ _ (addAt_detector k g u)
  unfold presentIn
  rw [hkey, hlocv, addAt_groups, alLookup_alSet]
  by_cases hk : addKey g v = addKey g u
  · rw [if_pos hk]
    refine ⟨updateBestURLAt k g (addGroup2 g u), rfl, ?_⟩
    rw [updateBestURLAt_URLs]
    unfold addGroup2
    rw [← hk]
    simp only [hgr]
    by_cases hl2 : (alLookup gr.URLs (addLoc g u)).isSome = true
    · rw [if_pos hl2]
      exact hloc
    · rw [if_neg hl2, alLookup_append]
      cases hx : alLookup gr.URLs (addLoc g v) with
      | some w => simp
      | none =>
        rw [hx] at hloc
        simp at hloc
  · rw [if_neg hk]
    exact ⟨gr, hgr, hloc⟩

theorem addAt_self_present (k : Nat) (g : Grouper) (u : GoURL) :
    presentIn (Grouper.AddAt k g u) u := by
  have hkey : addKey (Grouper.AddAt k g u) u = addKey g u :=
    addKey_congr _ _ _ (addAt_detector k g u) (addAt_matcher k g u)
  have hlocv : addLoc (Grouper.AddAt k g u) u = addLoc g u :=
    addLoc_congr _ _ _ (addAt_detector k g u)
  unfold presentIn
  rw [hkey, hlocv, addAt_groups, alLookup_alSet, if_pos rfl]
  refine ⟨updateBestURLAt k g (addGroup2 g u), rfl, ?_⟩
  rw [updateBestURLAt_URLs]
  unfold addGroup2
  simp only []
  cases hm : alLookup g.groups (addKey g u) with
  | some gr =>
    simp only [hm]
    by_cases hl : (alLookup gr.URLs (addLoc g u)).isSome = true
    · rw [if_pos hl]
      exact hl
    · rw [if_neg hl, alLookup_append]
      cases hx : alLookup gr.URLs (addLoc g u) with
      | some w =>
        rw [hx] at hl
        simp at hl
      | none => simp [alLookup]
  | none =>
    simp only [hm]
    rw [if_neg (by simp [alLookup])]
    simp [alLookup_append, alLookup]

theorem foldlW_present (addsW : List (GoURL × Nat)) :
    ∀ (g : Grouper) (u : GoURL), u ∈ addsW.map Prod.fst ∨ presentIn g u →
      presentIn (List.foldl (fun g2 p => Grouper.AddAt p.2 g2 p.1) g addsW) u := by
  induction addsW with
  | nil =>
    intro g u h
    rcases h with h | h
    · simp at h
    · exact h
  | cons a rest ih =>
    intro g u h
    rw [List.foldl_cons]
    apply ih
    rcases h with h | h
    · rw [List.map_cons] at h
      rcases List.mem_cons.mp h with h | h
      · subst h
        exact Or.inr (addAt_self_present a.2 g a.1)
      · exact Or.inl h
    · exact Or.inr (addAt_preserves_present a.2 g a.1 u h)

theorem newGrouper_invW (prio : List String) : GrouperInvW (NewGrouper prio) := by
  intro k gr h
  rw [newGrouper_groups] at h
  simp [alLookup] at h

theorem addAt_preserves_invW (k : Nat) (g : Grouper) (u : GoURL)
    (hinv : GrouperInvW g) : GrouperInvW (Grouper.AddAt k g u) := by
  intro key gr hlook
  rw [addAt_groups, alLookup_alSet] at hlook
  rw [addAt_priority_eq]
  by_cases hk : key = addKey g u
  · rw [if_pos hk] at hlook
    injection hlook with hlook
    subst hlook
    have hne2 := addGroup2_URLs_ne_nil g u
    refine ⟨?_, ?_, ?_⟩
    · rw [updateBestURLAt_URLs]
      exact hne2
    · rw [updateBestURLAt_URLs]
      intro hdet
      exact updateBestURLAt_determined k g (addGroup2 g u) hdet
    · rw [updateBestURLAt_URLs]
      exact updateBestURLAt_mem k g (addGroup2 g u) hne2
  · rw [if_neg hk] at hlook
    exact hinv key gr hlook

theorem foldlW_invW (addsW : List (GoURL × Nat)) :
    ∀ g : Grouper, GrouperInvW g →
      GrouperInvW (List.foldl (fun g2 p => Grouper.AddAt p.2 g2 p.1) g addsW) := by
  induction addsW with
  | nil => intro g h; exact h
  | cons a rest ih =>
    intro g h
    exact ih _ (addAt_preserves_invW a.2 g a.1 h)

theorem foldlW_priority (addsW : List (GoURL × Nat)) :
    ∀ g : Grouper,
      (List.foldl (fun g2 p => Grouper.AddAt p.2 g2 p.1) g addsW).Priority
        = g.Priority := by
  induction addsW with
  | nil => intro g; rfl
  | cons a rest ih =>
    intro g
    rw [List.foldl_cons, ih, addAt_priority_eq]

/-! ## C6 -/

/-- C6 (amended): re-adding an already-added URL, under any map-iteration
choices in the history and in the re-add, leaves the number of groups and
every group's stored locale map unchanged, and leaves a group's best URL
unchanged whenever it is determined by a listed priority locale or a
`"default"` entry; a group decided by the arbitrary fallback keeps some
stored entry as best URL, but which one depends on the map iteration order
and may change (see the counterexample). -/
theorem add_idempotent_amended (prio : List String) (addsW : List (GoURL × Nat))
    (u : GoURL) (k : Nat) (hmem : u ∈ addsW.map Prod.fst) :
    (Grouper.AddAt k
        (List.foldl (fun g2 p => Grouper.AddAt p.2 g2 p.1) (NewGrouper prio) addsW)
        u).groups.length
      = (List.foldl (fun g2 p => Grouper.AddAt p.2 g2 p.1) (NewGrouper prio)
          addsW).groups.length ∧
    (∀ key, (alLookup (Grouper.AddAt k
          (List.foldl (fun g2 p => Grouper.AddAt p.2 g2 p.1) (NewGrouper prio) addsW)
          u).groups key).map LocaleGroup.URLs
      = (alLookup (List.foldl (fun g2 p => Grouper.AddAt p.2 g2 p.1)
          (NewGrouper prio) addsW).groups key).map LocaleGroup.URLs) ∧
    (∀ key gr, alLookup (List.foldl (fun g2 p => Grouper.AddAt p.2 g2 p.1)
          (NewGrouper prio) addsW).groups key = some gr →
      (((NewGrouper prio).Priority.find?
          (fun x => (alLookup gr.URLs x).isSome)).isSome = true ∨
        (alLookup gr.URLs "default").isSome = true) →
      (alLookup (Grouper.AddAt k
          (List.foldl (fun g2 p => Grouper.AddAt p.2 g2 p.1) (NewGrouper prio) addsW)
          u).groups key).map LocaleGroup.BestURL = some gr.BestURL) ∧
    (∀ key gr2, alLookup (Grouper.AddAt k
          (List.foldl (fun g2 p => Grouper.AddAt p.2 g2 p.1) (NewGrouper prio) addsW)
          u).groups key = some gr2 →
      ∃ l u2, (l, u2) ∈ gr2.URLs ∧ gr2.BestURL = some u2) := by
  set gW := List.foldl (fun g2 p => Grouper.AddAt p.2 g2 p.1) (NewGrouper prio) addsW
    with hgW
  have hp : presentIn gW u := foldlW_present addsW (NewGrouper prio) u (Or.inl hmem)
  obtain ⟨gr0, hgr0, hloc0⟩ := hp
  have hinv : GrouperInvW gW := foldlW_invW addsW (NewGrouper prio) (newGrouper_invW prio)
  have hprio : gW.Priority = (NewGrouper prio).Priority := foldlW_priority addsW _
  have hg2 : addGroup2 gW u = gr0 := by
    unfold addGroup2
    simp only [hgr0]
    rw [if_pos hloc0]
  have hgroups : (Grouper.AddAt k gW u).groups
      = alSet gW.groups (addKey gW u) (updateBestURLAt k gW gr0) := by
    rw [addAt_groups, hg2]
  refine ⟨?_, ?_, ?_, ?_⟩
  · rw [hgroups]
    exact alSet_length gW.groups (addKey gW u) _ (by rw [hgr0]; rfl)
  · intro key
    rw [hgroups, alLookup_alSet]
    by_cases hk : key = addKey gW u
    · rw [if_pos hk, hk, hgr0]
      simp [updateBestURLAt_URLs]
    · rw [if_neg hk]
  · intro key gr hlook hdet
    rw [hgroups, alLookup_alSet]
    by_cases hk : key = addKey gW u
    · rw [if_pos hk]
      rw [hk, hgr0] at hlook
      injection hlook with hlook
      rw [hlook]
      have hdet2 : (gW.Priority.findSome? (fun pl => alLookup gr.URLs pl)).isSome = true ∨
          (alLookup gr.URLs "default").isSome = true := by
        rcases hdet with hd | hd
        · exact Or.inl ((findSome?_isSome_iff gr.URLs gW.Priority).mpr
            (by rw [hprio]; exact hd))
        · exact Or.inr hd
      have hb1 : (updateBestURLAt k gW gr).BestURL = bestOf gW.Priority gr.URLs :=
        updateBestURLAt_determined k gW gr hdet2
      have hb2 : gr.BestURL = bestOf gW.Priority gr.URLs := by
        have hg := hinv _ _ hgr0
        rw [hlook] at hg
        exact hg.2.1 hdet2
      show some ((updateBestURLAt k gW gr).BestURL) = some gr.BestURL
      rw [hb1, ← hb2]
    · rw [if_neg hk, hlook]
      rfl
  · intro key gr2 hlook2
    have hinv2 : GrouperInvW (Grouper.AddAt k gW u) := addAt_preserves_invW k gW u hinv
    exact (hinv2 key gr2 hlook2).2.2

set_option maxRecDepth 4000 in
/-- C6 witness: re-adding `en.example.com/` (with an arbitrary fallback
choice, here 5) to the grouper that already holds it keeps the group count,
the stored map, and — its group being determined by the priority locale
`en` — its best URL. -/
theorem add_idempotent_amended_witness :
    (alLookup (Grouper.AddAt 5
        (List.foldl (fun g2 p => Grouper.AddAt p.2 g2 p.1) (NewGrouper ["en"])
          [(exU3, 0)])
        exU3).groups c3Key).map LocaleGroup.BestURL = some c3Group.BestURL :=
  (add_idempotent_amended ["en"] [(exU3, 0)] exU3 5 (by decide)).2.2.1 c3Key c3Group
    (by decide) (Or.inl (by decide))

set_option maxRecDepth 8000 in
/-- C6 counterexample: the claim as stated is false under Go's map-iteration
semantics.  In `c6state` (priority `["fr"]`, one group holding `en` and `es`,
no `"default"`), the best URL was set by the arbitrary fallback.  Re-adding
the already-present `c6uEn` re-runs the fallback on the unchanged group;
`AddAt 1` — a legal execution of Go's `Add`, since `range` over the map may
visit the `es` entry first — changes the group's best URL even though group
count and stored entries are unchanged. -/
theorem add_idempotent_counterexample :
    (alLookup (Grouper.AddAt 1 c6state c6uEn).groups c6key).map LocaleGroup.BestURL
      ≠ (alLookup c6state.groups c6key).map LocaleGroup.BestURL ∧
    (Grouper.AddAt 1 c6state c6uEn).groups.length = c6state.groups.length ∧
    (alLookup (Grouper.AddAt 1 c6state c6uEn).groups c6key).map LocaleGroup.URLs
      = (alLookup c6state.groups c6key).map LocaleGroup.URLs := by
  refine ⟨by decide, by decide, by decide⟩

end Dupdurl
